import Mathlib

/-!
# Sale settlement and payout reconciliation: a verification development

Shallow embedding of the settlement pipeline of the `instant-sale`
marketplace server (`server.js` plus the mongoose models `Item`, `User`,
`DownloadToken`, `PendingTransfer`), together with proofs of the stated
properties of its webhook ingestion gate, settlement orchestrator, payout
ledger and download-token issuer.

Conventions of the embedding:
* machine integers are `Nat`/`Int`; money amounts are integers in the
  smallest currency unit, as the data model prescribes;
* the JavaScript fee computation `Math.floor(price * (feePercent / 100))`
  is evaluated in IEEE-754 binary64 arithmetic.  The binary64 rounding is
  embedded exactly, over integer pairs `m * 2 ^ e` (round to nearest, ties
  to even), so the model reproduces the double-precision result bit for
  bit on the normal range used by the program;
* each HTTP handler becomes a pure function from a request, an oracle for
  the external collaborators (payment processor, file system) and the
  database state to a response, a new database state and the list of
  transfer calls issued;
* mongoose operations are atomic single-document operations on the
  embedded state, matching the single-threaded-per-request model of the
  design.
-/

namespace InstantSale

/-! ## IEEE-754 binary64 model of the fee computation

`server.js` computes the platform fee as
`Math.floor(item.price * (feePercent / 100))` — double-precision
arithmetic.  We embed the two roundings (the division by 100 and the
product) exactly: a positive double is a pair `m * 2 ^ e` with
`2 ^ 52 ≤ m < 2 ^ 53`, and each operation rounds the exact rational
result to the nearest such pair, ties to even. -/

/-- Round `a / b` (with `b > 0`) to the nearest integer, ties to even. -/
def rdNE (a b : ℕ) : ℕ :=
  let q := a / b
  let r := a % b
  if 2 * r < b then q
  else if b < 2 * r then q + 1
  else if q % 2 = 0 then q else q + 1

/-- Fueled floor of the base-2 logarithm (structural recursion on the
fuel, so the kernel can evaluate it). -/
def ilog2F : ℕ → ℕ → ℕ
  | 0, _ => 0
  | f + 1, n => if 2 ≤ n then ilog2F f (n / 2) + 1 else 0

/-- Floor of the base-2 logarithm, valid for `0 < n < 2 ^ 128`. -/
def ilog2 (n : ℕ) : ℕ := ilog2F 128 n

/-- Floor of the base-2 logarithm of the positive rational `a / b`. -/
def floorLog2 (a b : ℕ) : ℤ :=
  let la := ilog2 a
  let lb := ilog2 b
  if lb ≤ la then
    (if b * 2 ^ (la - lb) ≤ a then ((la : ℤ) - lb) else (la : ℤ) - lb - 1)
  else
    (if b ≤ a * 2 ^ (lb - la) then -((lb - la : ℕ) : ℤ) else -((lb - la : ℕ) : ℤ) - 1)

/-- Round the positive rational `a / b` to the nearest binary64 value,
returned as a mantissa/exponent pair `(m, e)` whose value is `m * 2 ^ e`. -/
def roundMantExp (a b : ℕ) : ℕ × ℤ :=
  let k := floorLog2 a b
  let e := k - 52
  if 0 ≤ e then (rdNE a (b * 2 ^ e.toNat), e)
  else (rdNE (a * 2 ^ (-e).toNat) b, e)

/-- The binary64 value of `p / 100`, as computed by `feePercent / 100`. -/
def jsDiv100 (p : ℕ) : ℕ × ℤ :=
  if p = 0 then (0, 0) else roundMantExp p 100

/-- The binary64 product of the integer `price` and the double `m * 2 ^ e`,
as computed by `item.price * (feePercent / 100)`. -/
def jsMulPrice (price m : ℕ) (e : ℤ) : ℕ × ℤ :=
  if price * m = 0 then (0, 0)
  else if 0 ≤ e then roundMantExp (price * m * 2 ^ e.toNat) 1
  else roundMantExp (price * m) (2 ^ (-e).toNat)

/-- `Math.floor` of the nonnegative double `m * 2 ^ e` (exact on doubles). -/
def mathFloorPos (m : ℕ) (e : ℤ) : ℕ :=
  if 0 ≤ e then m * 2 ^ e.toNat else m / 2 ^ (-e).toNat

/-- `Math.floor(price * (feePercent / 100))` exactly as the server computes
it in binary64 arithmetic (`server.js`, checkout and webhook handlers). -/
def feeJs (price feePercent : ℕ) : ℕ :=
  let d := jsDiv100 feePercent
  let pr := jsMulPrice price d.1 d.2
  mathFloorPos pr.1 pr.2

/-- The exact mathematical fee the specification prescribes:
`floor(price * fee_percent / 100)`. -/
def feeSpec (price feePercent : ℕ) : ℕ := price * feePercent / 100

/-! ## Data model

Embeddings of the mongoose schemas `Item`, `User`, `DownloadToken`,
`PendingTransfer` and `ProcessedEvent`.  Document ids are natural
numbers; nullable references are `Option`; a missing
`stripeAccountId` is the empty string, as the schema default `''`
prescribes. -/

/-- `PendingTransferSchema.status : enum ['queued','transferred','expired']`. -/
inductive PTStatus
  | queued
  | transferred
  | expired
  deriving DecidableEq, Repr

/-- `models/User.js`: seller account with payout fields. -/
structure UserR where
  id : ℕ
  stripeAccountId : String
  payoutsEnabled : Bool
  deriving DecidableEq, Repr

/-- `models/Item.js`: a purchasable listing (the fields the settlement
pipeline reads). -/
structure ItemR where
  id : ℕ
  slug : String
  price : ℕ
  currency : String
  filePath : String
  s3Key : String
  ownerUser : Option ℕ
  deriving DecidableEq, Repr

/-- `models/DownloadToken.js`: a download capability. -/
structure DownloadTokenR where
  token : String
  item : ℕ
  expiresAt : ℤ
  usedOnce : Bool
  sessionId : Option String
  deriving DecidableEq, Repr

/-- `models/PendingTransfer.js`: a durable IOU keyed by payment intent. -/
structure PendingTransferR where
  rowId : ℕ
  seller : Option ℕ
  item : ℕ
  amount : ℤ
  currency : String
  paymentIntentId : String
  transferGroup : String
  reason : String
  status : PTStatus
  deriving DecidableEq, Repr

/-- The document database: one collection per model, plus the
`ProcessedEvent` dedup collection (kept as its list of event ids) and a
fresh-`_id` counter for inserted `PendingTransfer` rows. -/
structure DB where
  items : List ItemR
  users : List UserR
  tokens : List DownloadTokenR
  pendings : List PendingTransferR
  processed : List String
  nextId : ℕ
  deriving DecidableEq, Repr

/-- `Item.findById`. -/
def findItem (db : DB) (i : ℕ) : Option ItemR :=
  db.items.find? (fun it => it.id == i)

/-- `User.findById`. -/
def findUser (db : DB) (u : ℕ) : Option UserR :=
  db.users.find? (fun x => x.id == u)

/-- `DownloadToken.findOne({ sessionId })`. -/
def findTokenBySession (db : DB) (sid : String) : Option DownloadTokenR :=
  db.tokens.find? (fun t => t.sessionId == some sid)

/-! ## Pending-transfer ledger operations -/

/-- The update document passed to
`PendingTransfer.updateOne({ paymentIntentId }, {...}, { upsert: true })`:
every field of the row except `_id`, `status`, `expiresAt`, `createdAt`. -/
structure PTFields where
  seller : Option ℕ
  item : ℕ
  amount : ℤ
  currency : String
  transferGroup : String
  reason : String
  deriving DecidableEq, Repr

/-- Apply the update document to an existing row: the listed fields are
set, `status` (and the schema-managed timestamps) are untouched. -/
def ptApply (f : PTFields) (pid : String) (r : PendingTransferR) : PendingTransferR :=
  { r with
    seller := f.seller, item := f.item, amount := f.amount,
    currency := f.currency, paymentIntentId := pid,
    transferGroup := f.transferGroup, reason := f.reason }

/-- `updateOne` updates the first matching document only. -/
def ptUpdateFirst (f : PTFields) (pid : String) :
    List PendingTransferR → List PendingTransferR
  | [] => []
  | r :: rs =>
    if r.paymentIntentId == pid then ptApply f pid r :: rs
    else r :: ptUpdateFirst f pid rs

/-- `PendingTransfer.updateOne({ paymentIntentId: pid }, f, { upsert: true })`:
update the matching row if one exists, otherwise insert a fresh row; the
schema default gives an inserted row `status: 'queued'`. -/
def ptUpsert (db : DB) (pid : String) (f : PTFields) : DB :=
  if db.pendings.any (fun r => r.paymentIntentId == pid) then
    { db with pendings := ptUpdateFirst f pid db.pendings }
  else
    { db with
      pendings := db.pendings ++
        [{ rowId := db.nextId, seller := f.seller, item := f.item,
           amount := f.amount, currency := f.currency,
           paymentIntentId := pid, transferGroup := f.transferGroup,
           reason := f.reason, status := .queued }],
      nextId := db.nextId + 1 }

/-- `PendingTransfer.deleteOne({ paymentIntentId })` (first match). -/
def ptDeleteByPid (db : DB) (pid : String) : DB :=
  { db with pendings := db.pendings.eraseP (fun r => r.paymentIntentId == pid) }

/-- `PendingTransfer.deleteOne({ _id })` (first match). -/
def ptDeleteByRowId (db : DB) (rid : ℕ) : DB :=
  { db with pendings := db.pendings.eraseP (fun r => r.rowId == rid) }

/-! ## External collaborators and configuration

Each handler receives an oracle fixing, for the duration of the request,
the behaviour of the payment processor and the file system.  A call that
the JavaScript writes as `await stripe.…` which may throw is an
`Except`; a thrown transfer error carries the optional
`payment_intent.id` field that the webhook's catch block reads. -/

/-- `event.data.object`: the checkout session inside the webhook envelope
(`payment_status`, `payment_intent`, `metadata.itemId`). -/
structure SessionR where
  id : String
  paymentStatus : String
  paymentIntent : Option String
  metaItemId : Option ℕ
  deriving DecidableEq, Repr

/-- The webhook event types the handler distinguishes. -/
inductive EvType
  | completed
  | asyncSucceeded
  | asyncFailed
  | other
  deriving DecidableEq, Repr

/-- The verified webhook envelope `{id, type, data.object}`. -/
structure EventR where
  id : String
  type : EvType
  session : SessionR
  deriving DecidableEq, Repr

/-- The retrieved payment intent: `id`, `transfer_data` presence,
`transfer_group`. -/
structure PIR where
  id : String
  hasTransferData : Bool
  transferGroup : Option String
  deriving DecidableEq, Repr

/-- A connected account as retrieved: its `payouts_enabled` flag. -/
structure AccountR where
  payoutsEnabled : Bool
  deriving DecidableEq, Repr

/-- An error thrown by a processor call; `paymentIntentId` embeds the
`err?.payment_intent && err.payment_intent.id` field the catch block of
the webhook handler inspects. -/
structure StripeErr where
  paymentIntentId : Option String
  deriving DecidableEq, Repr

/-- A `stripe.transfers.create` request. -/
structure TransferReq where
  amount : ℤ
  currency : String
  destination : String
  transferGroup : Option String
  deriving DecidableEq, Repr

/-- A transfer call that was issued, with its outcome. -/
structure TransferAttempt where
  req : TransferReq
  ok : Bool
  deriving DecidableEq, Repr

/-- Whether an account-retrieval result reports payouts enabled
(`!!acc?.payouts_enabled`); a failed retrieval reports nothing. -/
def reportsEnabled : Except StripeErr AccountR → Bool
  | .ok acc => acc.payoutsEnabled
  | .error _ => false

/-- The environment-derived configuration read by the handlers. -/
structure Cfg where
  stripeConfigured : Bool
  webhookSecretConfigured : Bool
  s3Configured : Bool
  feePercent : ℕ
  ttlMin : ℕ
  now : ℤ
  deriving DecidableEq, Repr

/-- Oracle for one delivery of `POST /webhooks/stripe`. -/
structure WebhookOracle where
  verify : Except String EventR
  retrievePI : String → Except StripeErr PIR
  retrieveAccount : String → Except StripeErr AccountR
  transferOutcome : TransferReq → Option StripeErr
  freshToken : String

/-- Oracle for one request to `GET /success`. -/
structure SuccessOracle where
  retrieveSession : Except StripeErr SessionR
  freshToken : String

/-- Oracle for one request to `GET /connect/return`. -/
structure ReturnOracle where
  retrieveAccount : String → Except StripeErr AccountR
  transferOutcome : TransferReq → Option StripeErr

/-- Oracle for one request to `POST /admin/retry-pending`. -/
structure AdminOracle where
  retrieveAccount : String → Except StripeErr AccountR
  transferOutcome : TransferReq → Option StripeErr

/-- Oracle for one request to `GET /download/:token`: whether a path
exists as a regular file. -/
structure DlOracle where
  fileOk : String → Bool

/-! ## The webhook handler (`POST /webhooks/stripe`) -/

/-- The responses the webhook handler can produce (the outer catch is
not modelled: the embedded database operations are total). -/
inductive WebhookResp
  | notConfigured
  | sigError (msg : String)
  | okDuplicate
  | ok
  deriving DecidableEq, Repr

/-- HTTP status of a webhook response. -/
def webhookStatus : WebhookResp → ℕ
  | .notConfigured => 500
  | .sigError _ => 400
  | .okDuplicate => 200
  | .ok => 200

/-- Response body of the signature-failure branch: the raw verification
error message prefixed with `Webhook Error: `. -/
def sigErrorBody (msg : String) : String := "Webhook Error: " ++ msg

/-- A freshly minted download token (`nanoid(32)` string supplied by the
oracle, TTL minutes from configuration, `usedOnce` defaulted `false`). -/
def mintToken (cfg : Cfg) (tok : String) (itemId : ℕ) (sid : String) : DownloadTokenR :=
  { token := tok, item := itemId,
    expiresAt := cfg.now + cfg.ttlMin * 60 * 1000,
    usedOnce := false, sessionId := some sid }

/-- Step 1 of the settlement orchestrator: download-token issuance
(`server.js` webhook handler, token block). -/
def tokenStage (cfg : Cfg) (o : WebhookOracle) (s : SessionR) (db : DB) : DB :=
  if s.paymentStatus == "paid" then
    match s.metaItemId with
    | none => db
    | some itemId =>
      match findTokenBySession db s.id with
      | some _ => db
      | none =>
        match findItem db itemId with
        | none => db
        | some item =>
          { db with tokens := db.tokens ++ [mintToken cfg o.freshToken item.id s.id] }
  else db

/-- The catch block of the transfer section: enqueue a PendingTransfer
only when the thrown error carries a payment-intent id and the item is
found; reason `'exception'`, transfer group rebuilt from the item id. -/
def catchStage (cfg : Cfg) (s : SessionR) (e : StripeErr) (db : DB) : DB :=
  match e.paymentIntentId, s.metaItemId with
  | some piId, some itemId =>
    match findItem db itemId with
    | some item =>
      let fee := feeJs item.price cfg.feePercent
      let sellerAmount : ℤ := (item.price : ℤ) - fee
      ptUpsert db piId
        { seller := item.ownerUser, item := item.id, amount := sellerAmount,
          currency := item.currency,
          transferGroup := "item_" ++ toString item.id, reason := "exception" }
    | none => db
  | _, _ => db

/-- Step 2 of the settlement orchestrator: the immediate-transfer attempt
with its fallback enqueueing, i.e. the `try { … } catch (tErr) { … }`
around the transfer section of the webhook handler. -/
def transferStage (cfg : Cfg) (o : WebhookOracle) (s : SessionR) (db : DB) :
    DB × List TransferAttempt :=
  match s.paymentIntent with
  | none => (db, [])
  | some piId =>
    match o.retrievePI piId with
    | .error e => (catchStage cfg s e db, [])
    | .ok pi =>
      match s.metaItemId with
      | none => (db, [])
      | some itemId =>
        if pi.hasTransferData then (db, [])
        else
          match findItem db itemId with
          | none => (db, [])
          | some item =>
            match item.ownerUser with
            | none => (db, [])
            | some ownerId =>
              let seller? := findUser db ownerId
              let fee := feeJs item.price cfg.feePercent
              let sellerAmount : ℤ := (item.price : ℤ) - fee
              let transferGroup := pi.transferGroup.getD ("item_" ++ toString item.id)
              let fields : String → PTFields := fun reason =>
                { seller := item.ownerUser, item := item.id,
                  amount := sellerAmount, currency := item.currency,
                  transferGroup := transferGroup, reason := reason }
              match seller? with
              | none => (ptUpsert db pi.id (fields "seller_no_stripe_account"), [])
              | some seller =>
                if seller.stripeAccountId == "" then
                  (ptUpsert db pi.id (fields "seller_no_stripe_account"), [])
                else if sellerAmount ≤ 0 then
                  (ptUpsert db pi.id (fields "non_positive_amount"), [])
                else
                  let canTransfer :=
                    match o.retrieveAccount seller.stripeAccountId with
                    | .ok acc => acc.payoutsEnabled
                    | .error _ => true
                  if canTransfer then
                    let req : TransferReq :=
                      { amount := sellerAmount, currency := item.currency,
                        destination := seller.stripeAccountId,
                        transferGroup := some transferGroup }
                    match o.transferOutcome req with
                    | none => (ptDeleteByPid db pi.id, [⟨req, true⟩])
                    | some e => (catchStage cfg s e db, [⟨req, false⟩])
                  else (ptUpsert db pi.id (fields "payouts_disabled"), [])

/-- `POST /webhooks/stripe`: configuration gate, signature verification,
`ProcessedEvent` dedup, then the two orchestrator stages. -/
def handleWebhook (cfg : Cfg) (o : WebhookOracle) (db : DB) :
    WebhookResp × DB × List TransferAttempt :=
  if ¬ (cfg.stripeConfigured ∧ cfg.webhookSecretConfigured) then (.notConfigured, db, [])
  else
    match o.verify with
    | .error msg => (.sigError msg, db, [])
    | .ok ev =>
      if db.processed.contains ev.id then (.okDuplicate, db, [])
      else
        let db1 := { db with processed := db.processed ++ [ev.id] }
        if ev.type == .completed || ev.type == .asyncSucceeded then
          let db2 := tokenStage cfg o ev.session db1
          let r := transferStage cfg o ev.session db2
          (.ok, r.1, r.2)
        else (.ok, db1, [])

/-! ## The success page (`GET /success`): fallback token issuance -/

/-- Responses of `GET /success`. -/
inductive SuccessResp
  | notConfigured
  | itemNotFound
  | sessionError
  | notPaid
  | okPage (token : String)
  deriving DecidableEq, Repr

/-- `GET /success?session_id=…&slug=…`: prefer the token the webhook
already issued for the session; otherwise mint one here. -/
def handleSuccess (cfg : Cfg) (o : SuccessOracle) (slug : String) (db : DB) :
    SuccessResp × DB :=
  if ¬ cfg.stripeConfigured then (.notConfigured, db)
  else
    match db.items.find? (fun it => it.slug == slug) with
    | none => (.itemNotFound, db)
    | some item =>
      match o.retrieveSession with
      | .error _ => (.sessionError, db)
      | .ok session =>
        if session.paymentStatus == "paid" && session.metaItemId == some item.id then
          match findTokenBySession db session.id with
          | some doc => (.okPage doc.token, db)
          | none =>
            let t := mintToken cfg o.freshToken item.id session.id
            (.okPage t.token, { db with tokens := db.tokens ++ [t] })
        else (.notPaid, db)

/-! ## Download redemption (`GET /download/:token`) -/

/-- Outcomes of a redemption, in the order the handler tests them. -/
inductive RedeemOutcome
  | notFound
  | alreadyUsed
  | expiredGone
  | itemMissing
  | fileMissing
  | localStream
  | signedView
  deriving DecidableEq, Repr

/-- HTTP status of each redemption outcome. -/
def redeemStatus : RedeemOutcome → ℕ
  | .notFound => 404
  | .alreadyUsed => 410
  | .expiredGone => 410
  | .itemMissing => 404
  | .fileMissing => 404
  | .localStream => 200
  | .signedView => 200

/-- `GET /download/:token`: look the token up, test `usedOnce`, then the
expiry, then resolve the asset; the handler performs no database write on
any path. -/
def handleDownload (cfg : Cfg) (o : DlOracle) (tok : String) (db : DB) :
    RedeemOutcome × DB :=
  match db.tokens.find? (fun t => t.token == tok) with
  | none => (.notFound, db)
  | some doc =>
    if doc.usedOnce then (.alreadyUsed, db)
    else if doc.expiresAt < cfg.now then (.expiredGone, db)
    else
      match findItem db doc.item with
      | none => (.itemMissing, db)
      | some item =>
        if ¬ cfg.s3Configured || item.s3Key == "" then
          let absRaw := item.filePath.trim
          if absRaw ≠ "" ∧ o.fileOk absRaw then (.localStream, db)
          else (.fileMissing, db)
        else (.signedView, db)

/-! ## Return-flow drain (`GET /connect/return`) -/

/-- Responses of `GET /connect/return`. -/
inductive ReturnResp
  | noAccount
  | statusError
  | okPage
  deriving DecidableEq, Repr

/-- The transfer request the drains build from a ledger row
(`transfer_group: p.transferGroup || undefined`). -/
def reqOfRow (accId : String) (p : PendingTransferR) : TransferReq :=
  { amount := p.amount, currency := p.currency, destination := accId,
    transferGroup := if p.transferGroup == "" then none else some p.transferGroup }

/-- The drain loop of `GET /connect/return`: iterate the snapshot of the
seller's rows; a successful transfer deletes its row by `_id`, a failed
one leaves the database untouched, and the loop always continues with
the next row. -/
def drainLoop (accId : String) (outcome : TransferReq → Option StripeErr) :
    List PendingTransferR → DB → DB × List TransferAttempt
  | [], db => (db, [])
  | p :: ps, db =>
    let req := reqOfRow accId p
    match outcome req with
    | none =>
      let r := drainLoop accId outcome ps (ptDeleteByRowId db p.rowId)
      (r.1, ⟨req, true⟩ :: r.2)
    | some _ =>
      let r := drainLoop accId outcome ps db
      (r.1, ⟨req, false⟩ :: r.2)

/-- `GET /connect/return`: refresh the cached `payoutsEnabled` flag from
the processor and, if payouts became enabled, drain the seller's pending
transfers. -/
def handleReturn (_cfg : Cfg) (o : ReturnOracle) (userId : ℕ) (db : DB) :
    ReturnResp × DB × List TransferAttempt :=
  match findUser db userId with
  | none => (.noAccount, db, [])
  | some user =>
    if user.stripeAccountId == "" then (.noAccount, db, [])
    else
      match o.retrieveAccount user.stripeAccountId with
      | .error _ => (.statusError, db, [])
      | .ok acct =>
        let pe := acct.payoutsEnabled
        let db1 :=
          { db with users := db.users.map (fun u =>
              if u.id == userId then { u with payoutsEnabled := pe } else u) }
        if pe then
          let snap := db1.pendings.filter (fun p => p.seller == some userId)
          let r := drainLoop user.stripeAccountId o.transferOutcome snap db1
          (.okPage, r.1, r.2)
        else (.okPage, db1, [])

/-! ## Administrative drain (`POST /admin/retry-pending`) -/

/-- Per-row outcome of the administrative drain. -/
inductive AdminRowStatus
  | skipNoAccount
  | skipPayoutsDisabled
  | transferred
  | rowError
  deriving DecidableEq, Repr

/-- The loop body of `POST /admin/retry-pending` over the full snapshot:
skip rows whose seller has no account or is not payout-enabled, transfer
and delete otherwise, isolating per-row failures. -/
def adminLoop (o : AdminOracle) :
    List PendingTransferR → DB → DB × List AdminRowStatus
  | [], db => (db, [])
  | p :: ps, db =>
    let step : DB × AdminRowStatus :=
      match p.seller.bind (findUser db) with
      | none => (db, .skipNoAccount)
      | some seller =>
        if seller.stripeAccountId == "" then (db, .skipNoAccount)
        else
          let enabled : Bool :=
            match o.retrieveAccount seller.stripeAccountId with
            | .ok acc => acc.payoutsEnabled
            | .error _ => false
          if ¬ enabled then (db, .skipPayoutsDisabled)
          else
            match o.transferOutcome (reqOfRow seller.stripeAccountId p) with
            | none => (ptDeleteByRowId db p.rowId, .transferred)
            | some _ => (db, .rowError)
    let r := adminLoop o ps step.1
    (r.1, step.2 :: r.2)

/-- `POST /admin/retry-pending` after a successful bearer-token check. -/
def handleAdminRetry (cfg : Cfg) (o : AdminOracle) (db : DB) :
    DB × List AdminRowStatus :=
  if ¬ cfg.stripeConfigured then (db, [])
  else adminLoop o db.pendings db

/-! ## Interleavings

The operations that touch the settlement state, as a single step type;
`runOps` folds an arbitrary sequence of requests over the database, which
is the sequential-interleaving model the design prescribes (atomic
single-document operations, no in-process locking). -/

/-- One inbound request relevant to settlement state. -/
inductive Op
  | webhook (o : WebhookOracle)
  | success (o : SuccessOracle) (slug : String)
  | connectReturn (o : ReturnOracle) (userId : ℕ)
  | adminRetry (o : AdminOracle)
  | download (o : DlOracle) (tok : String)

/-- The database after one request. -/
def runOp (cfg : Cfg) (db : DB) : Op → DB
  | .webhook o => (handleWebhook cfg o db).2.1
  | .success o slug => (handleSuccess cfg o slug db).2
  | .connectReturn o userId => (handleReturn cfg o userId db).2.1
  | .adminRetry o => (handleAdminRetry cfg o db).1
  | .download o tok => (handleDownload cfg o tok db).2

/-- The database after a sequence of requests. -/
def runOps (cfg : Cfg) (db : DB) : List Op → DB
  | [] => db
  | op :: ops => runOps cfg (runOp cfg db op) ops

/-! ## Invariants -/

/-- Number of ledger rows carrying a given payment-intent id. -/
def pidCount (l : List PendingTransferR) (pid : String) : ℕ :=
  l.countP (fun r => r.paymentIntentId == pid)

/-- At most one `PendingTransfer` row per payment-intent id. -/
def PidUnique (l : List PendingTransferR) : Prop :=
  ∀ pid, pidCount l pid ≤ 1

/-- Every ledger row is in status `queued` (nothing in the program ever
writes `transferred` or `expired`). -/
def AllQueued (l : List PendingTransferR) : Prop :=
  ∀ r ∈ l, r.status = PTStatus.queued

/-- Every download token still has `usedOnce = false`. -/
def AllUnused (db : DB) : Prop :=
  ∀ t ∈ db.tokens, t.usedOnce = false

/-- Number of download tokens referencing a given checkout session. -/
def tokCount (db : DB) (s : String) : ℕ :=
  db.tokens.countP (fun t => t.sessionId == some s)

/-- The combined ledger invariant: unique payment-intent keys, and every
row still in its insertion status `queued`. -/
def PTInv (l : List PendingTransferR) : Prop := PidUnique l ∧ AllQueued l

/-! ## Concrete fixtures for witnesses and counterexamples -/

/-- A fully configured deployment: 20 % platform fee, 120-minute token
TTL, request time 0. -/
def cfgW : Cfg :=
  { stripeConfigured := true, webhookSecretConfigured := true,
    s3Configured := true, feePercent := 20, ttlMin := 120, now := 0 }

/-- A listed item priced 1000 (smallest unit), owned by user 7. -/
def itemW : ItemR :=
  { id := 1, slug := "art", price := 1000, currency := "jpy",
    filePath := "", s3Key := "key1", ownerUser := some 7 }

/-- A checkout session for `itemW`, paid, with a payment intent. -/
def sessW : SessionR :=
  { id := "cs_1", paymentStatus := "paid",
    paymentIntent := some "pi_1", metaItemId := some 1 }

/-- A `checkout.session.completed` event for `sessW`. -/
def evW : EventR := { id := "evt_1", type := .completed, session := sessW }

/-- A webhook oracle for a clean sale: the event verifies, the payment
intent lacks destination routing, the seller account is payout-enabled
and the transfer call succeeds. -/
def oW : WebhookOracle :=
  { verify := .ok evW,
    retrievePI := fun _ => .ok { id := "pi_1", hasTransferData := false, transferGroup := none },
    retrieveAccount := fun _ => .ok { payoutsEnabled := true },
    transferOutcome := fun _ => none,
    freshToken := "tok_1" }

/-- A database holding `itemW` and its seller (no payout account yet). -/
def dbW : DB :=
  { items := [itemW], users := [{ id := 7, stripeAccountId := "", payoutsEnabled := false }],
    tokens := [], pendings := [], processed := [], nextId := 0 }

/-- A success-page oracle that retrieves `sessW`. -/
def oS : SuccessOracle := { retrieveSession := .ok sessW, freshToken := "tok_2" }

/-- An unexpired, unused download token for `itemW`. -/
def tokW : DownloadTokenR :=
  { token := "t1", item := 1, expiresAt := 9999999, usedOnce := false,
    sessionId := some "cs_0" }

/-- `dbW` together with one live download token. -/
def dbT : DB := { dbW with tokens := [tokW] }

/-- A download oracle whose file-system checks always succeed. -/
def oD : DlOracle := { fileOk := fun _ => true }

/-- Seller 7 with a payout account on file. -/
def userP : UserR := { id := 7, stripeAccountId := "acct_7", payoutsEnabled := false }

/-- A queued IOU of 800 to seller 7. -/
def rowA : PendingTransferR :=
  { rowId := 0, seller := some 7, item := 1, amount := 800, currency := "jpy",
    paymentIntentId := "pi_a", transferGroup := "item_1",
    reason := "seller_no_stripe_account", status := .queued }

/-- A queued IOU of 500 to seller 7. -/
def rowB : PendingTransferR :=
  { rowId := 1, seller := some 7, item := 1, amount := 500, currency := "jpy",
    paymentIntentId := "pi_b", transferGroup := "item_1",
    reason := "payouts_disabled", status := .queued }

/-- A queued IOU of 300 to another seller. -/
def rowC : PendingTransferR :=
  { rowId := 2, seller := some 8, item := 1, amount := 300, currency := "jpy",
    paymentIntentId := "pi_c", transferGroup := "item_1",
    reason := "exception", status := .queued }

/-- A ledger with three queued rows across two sellers. -/
def dbP : DB :=
  { items := [itemW],
    users := [userP, { id := 8, stripeAccountId := "", payoutsEnabled := false }],
    tokens := [], pendings := [rowA, rowB, rowC], processed := [], nextId := 3 }

/-- A return-flow oracle: the account reports payouts enabled, the
transfer of 800 succeeds and every other transfer fails. -/
def oR : ReturnOracle :=
  { retrieveAccount := fun _ => .ok { payoutsEnabled := true },
    transferOutcome := fun req =>
      if req.amount == 800 then none else some { paymentIntentId := none } }

/-- Seller 7 with a payout account, cached as payout-enabled. -/
def userS : UserR := { id := 7, stripeAccountId := "acct_7", payoutsEnabled := true }

/-- A database for a clean sale: `itemW` owned by `userS`. -/
def dbS : DB :=
  { items := [itemW], users := [userS], tokens := [], pendings := [],
    processed := [], nextId := 0 }

/-- A webhook oracle whose transfer call throws an error carrying no
payment-intent id (as `stripe.transfers.create` errors do). -/
def oEx : WebhookOracle :=
  { verify := .ok evW,
    retrievePI := fun _ => .ok { id := "pi_1", hasTransferData := false, transferGroup := none },
    retrieveAccount := fun _ => .ok { payoutsEnabled := true },
    transferOutcome := fun _ => some { paymentIntentId := none },
    freshToken := "tok_1" }

/-- A webhook oracle whose account-status retrieval throws; the transfer
call itself succeeds. -/
def oG : WebhookOracle :=
  { verify := .ok evW,
    retrievePI := fun _ => .ok { id := "pi_1", hasTransferData := false, transferGroup := none },
    retrieveAccount := fun _ => .error { paymentIntentId := none },
    transferOutcome := fun _ => none,
    freshToken := "tok_1" }

/-- An expired token that is also marked used. -/
def tokU : DownloadTokenR :=
  { token := "t2", item := 1, expiresAt := -5, usedOnce := true, sessionId := none }

/-- `dbW` holding only the used-and-expired token. -/
def dbU : DB := { dbW with tokens := [tokU] }

/-- An expired token that was never used. -/
def tokE : DownloadTokenR :=
  { token := "t3", item := 1, expiresAt := -5, usedOnce := false, sessionId := none }

/-- `dbW` holding only the expired unused token. -/
def dbE : DB := { dbW with tokens := [tokE] }

end InstantSale

namespace InstantSale

/-! ## Framing lemmas

Each database-mutating operation touches exactly one collection; these
lemmas record what every operation leaves alone. -/

@[simp] theorem tokens_ptUpsert (db : DB) (pid : String) (f : PTFields) :
    (ptUpsert db pid f).tokens = db.tokens := by
  unfold ptUpsert; split <;> rfl

@[simp] theorem items_ptUpsert (db : DB) (pid : String) (f : PTFields) :
    (ptUpsert db pid f).items = db.items := by
  unfold ptUpsert; split <;> rfl

@[simp] theorem users_ptUpsert (db : DB) (pid : String) (f : PTFields) :
    (ptUpsert db pid f).users = db.users := by
  unfold ptUpsert; split <;> rfl

@[simp] theorem processed_ptUpsert (db : DB) (pid : String) (f : PTFields) :
    (ptUpsert db pid f).processed = db.processed := by
  unfold ptUpsert; split <;> rfl

@[simp] theorem tokens_ptDeleteByPid (db : DB) (pid : String) :
    (ptDeleteByPid db pid).tokens = db.tokens := rfl

@[simp] theorem tokens_ptDeleteByRowId (db : DB) (rid : ℕ) :
    (ptDeleteByRowId db rid).tokens = db.tokens := rfl

@[simp] theorem items_ptDeleteByRowId (db : DB) (rid : ℕ) :
    (ptDeleteByRowId db rid).items = db.items := rfl

@[simp] theorem users_ptDeleteByRowId (db : DB) (rid : ℕ) :
    (ptDeleteByRowId db rid).users = db.users := rfl

@[simp] theorem tokens_catchStage (cfg : Cfg) (s : SessionR) (e : StripeErr) (db : DB) :
    (catchStage cfg s e db).tokens = db.tokens := by
  unfold catchStage
  repeat' split
  all_goals simp

@[simp] theorem items_catchStage (cfg : Cfg) (s : SessionR) (e : StripeErr) (db : DB) :
    (catchStage cfg s e db).items = db.items := by
  unfold catchStage
  repeat' split
  all_goals simp

@[simp] theorem users_catchStage (cfg : Cfg) (s : SessionR) (e : StripeErr) (db : DB) :
    (catchStage cfg s e db).users = db.users := by
  unfold catchStage
  repeat' split
  all_goals simp

@[simp] theorem tokens_transferStage (cfg : Cfg) (o : WebhookOracle) (s : SessionR) (db : DB) :
    (transferStage cfg o s db).1.tokens = db.tokens := by
  unfold transferStage
  repeat' (first | simp | split)

@[simp] theorem pendings_tokenStage (cfg : Cfg) (o : WebhookOracle) (s : SessionR) (db : DB) :
    (tokenStage cfg o s db).pendings = db.pendings := by
  unfold tokenStage
  repeat' (first | rfl | simp | split)

@[simp] theorem items_tokenStage (cfg : Cfg) (o : WebhookOracle) (s : SessionR) (db : DB) :
    (tokenStage cfg o s db).items = db.items := by
  unfold tokenStage
  repeat' (first | rfl | simp | split)

@[simp] theorem users_tokenStage (cfg : Cfg) (o : WebhookOracle) (s : SessionR) (db : DB) :
    (tokenStage cfg o s db).users = db.users := by
  unfold tokenStage
  repeat' (first | rfl | simp | split)

@[simp] theorem nextId_tokenStage (cfg : Cfg) (o : WebhookOracle) (s : SessionR) (db : DB) :
    (tokenStage cfg o s db).nextId = db.nextId := by
  unfold tokenStage
  repeat' (first | rfl | simp | split)

@[simp] theorem db_handleDownload (cfg : Cfg) (o : DlOracle) (tok : String) (db : DB) :
    (handleDownload cfg o tok db).2 = db := by
  unfold handleDownload
  split <;> try rfl
  split <;> try rfl
  repeat' (first | rfl | simp | split)

@[simp] theorem pendings_handleSuccess (cfg : Cfg) (o : SuccessOracle) (slug : String) (db : DB) :
    (handleSuccess cfg o slug db).2.pendings = db.pendings := by
  unfold handleSuccess
  split <;> try rfl
  repeat' (first | rfl | simp | split)

@[simp] theorem items_handleSuccess (cfg : Cfg) (o : SuccessOracle) (slug : String) (db : DB) :
    (handleSuccess cfg o slug db).2.items = db.items := by
  unfold handleSuccess
  split <;> try rfl
  repeat' (first | rfl | simp | split)

@[simp] theorem users_handleSuccess (cfg : Cfg) (o : SuccessOracle) (slug : String) (db : DB) :
    (handleSuccess cfg o slug db).2.users = db.users := by
  unfold handleSuccess
  split <;> try rfl
  repeat' (first | rfl | simp | split)

theorem pendings_drainLoop (accId : String) (outcome : TransferReq → Option StripeErr) :
    ∀ snap db, (drainLoop accId outcome snap db).1.pendings.Sublist db.pendings := by
  intro snap
  induction snap with
  | nil => intro db; exact List.Sublist.refl _
  | cons p ps ih =>
    intro db
    simp only [drainLoop]
    split
    · exact (ih _).trans (List.eraseP_sublist _)
    · exact ih _

theorem tokens_drainLoop (accId : String) (outcome : TransferReq → Option StripeErr) :
    ∀ snap db, (drainLoop accId outcome snap db).1.tokens = db.tokens := by
  intro snap
  induction snap with
  | nil => intro db; rfl
  | cons p ps ih =>
    intro db
    simp only [drainLoop]
    split <;> simp [ih]

theorem pendings_adminLoop (o : AdminOracle) :
    ∀ snap db, (adminLoop o snap db).1.pendings.Sublist db.pendings := by
  intro snap
  induction snap with
  | nil => intro db; exact List.Sublist.refl _
  | cons p ps ih =>
    intro db
    simp only [adminLoop]
    refine List.Sublist.trans (ih _) ?_
    repeat' split
    all_goals first
      | exact List.Sublist.refl _
      | exact List.eraseP_sublist _

theorem tokens_adminLoop (o : AdminOracle) :
    ∀ snap db, (adminLoop o snap db).1.tokens = db.tokens := by
  intro snap
  induction snap with
  | nil => intro db; rfl
  | cons p ps ih =>
    intro db
    simp only [adminLoop]
    rw [ih]
    repeat' split
    all_goals simp

/-! ## Preservation of the ledger invariants -/

/-- `ptUpdateFirst` leaves the multiset of payment-intent ids unchanged
(the updated row already carried the matched id). -/
theorem map_pid_ptUpdateFirst (f : PTFields) (pid : String) :
    ∀ l : List PendingTransferR,
      (ptUpdateFirst f pid l).map (fun r => r.paymentIntentId)
        = l.map (fun r => r.paymentIntentId) := by
  intro l
  induction l with
  | nil => rfl
  | cons r rs ih =>
    unfold ptUpdateFirst
    split
    · rename_i h
      simp only [List.map_cons, ptApply]
      simp only [beq_iff_eq] at h
      simp [h]
    · simp [ih]

theorem map_status_ptUpdateFirst (f : PTFields) (pid : String) :
    ∀ l : List PendingTransferR,
      (ptUpdateFirst f pid l).map (fun r => r.status) = l.map (fun r => r.status) := by
  intro l
  induction l with
  | nil => rfl
  | cons r rs ih =>
    unfold ptUpdateFirst
    split
    · simp [ptApply]
    · simp [ih]

theorem pidCount_eq_countP_map (l : List PendingTransferR) (q : String) :
    pidCount l q = (l.map (fun r => r.paymentIntentId)).countP (fun s => s == q) := by
  simp [pidCount, List.countP_map]
  rfl

theorem pidUnique_ptUpsert (db : DB) (pid : String) (f : PTFields)
    (h : PidUnique db.pendings) : PidUnique (ptUpsert db pid f).pendings := by
  intro q
  unfold ptUpsert
  split
  · dsimp only
    rw [pidCount_eq_countP_map, map_pid_ptUpdateFirst, ← pidCount_eq_countP_map]
    exact h q
  · rename_i h0
    dsimp only
    unfold pidCount
    rw [List.countP_append]
    by_cases hq : q = pid
    · subst hq
      have hz : db.pendings.countP (fun r => r.paymentIntentId == q) = 0 := by
        rw [List.countP_eq_zero]
        intro r hr
        intro hc
        exact h0 (List.any_eq_true.2 ⟨r, hr, hc⟩)
      simp [hz, List.countP_cons]
    · have h1 : ∀ r : PendingTransferR, r.paymentIntentId = pid →
          (([r] : List PendingTransferR).countP (fun s => s.paymentIntentId == q)) = 0 := by
        intro r hr
        simp [List.countP_cons, hr]
        exact fun hc => (hq hc.symm).elim
      rw [h1 _ rfl]
      simpa [pidCount] using h q

theorem allQueued_ptUpsert (db : DB) (pid : String) (f : PTFields)
    (h : AllQueued db.pendings) : AllQueued (ptUpsert db pid f).pendings := by
  unfold ptUpsert
  split
  all_goals dsimp only
  · intro r hr
    have hm : r.status ∈ (ptUpdateFirst f pid db.pendings).map (fun r => r.status) :=
      List.mem_map_of_mem _ hr
    rw [map_status_ptUpdateFirst] at hm
    obtain ⟨r', hr', he⟩ := List.mem_map.1 hm
    rw [← he]
    exact h r' hr'
  · intro r hr
    simp only [List.mem_append, List.mem_singleton] at hr
    rcases hr with hr | hr
    · exact h r hr
    · rw [hr]

theorem pidUnique_of_sublist {l l' : List PendingTransferR}
    (hs : l'.Sublist l) (h : PidUnique l) : PidUnique l' := by
  intro q
  exact le_trans (hs.countP_le _) (h q)

theorem allQueued_of_sublist {l l' : List PendingTransferR}
    (hs : l'.Sublist l) (h : AllQueued l) : AllQueued l' :=
  fun r hr => h r (hs.mem hr)

theorem ptInv_ptUpsert (db : DB) (pid : String) (f : PTFields)
    (h : PTInv db.pendings) : PTInv (ptUpsert db pid f).pendings :=
  ⟨pidUnique_ptUpsert db pid f h.1, allQueued_ptUpsert db pid f h.2⟩

theorem ptInv_of_sublist {l l' : List PendingTransferR}
    (hs : l'.Sublist l) (h : PTInv l) : PTInv l' :=
  ⟨pidUnique_of_sublist hs h.1, allQueued_of_sublist hs h.2⟩

theorem ptInv_catchStage (cfg : Cfg) (s : SessionR) (e : StripeErr) (db : DB)
    (h : PTInv db.pendings) : PTInv (catchStage cfg s e db).pendings := by
  simp only [catchStage]
  repeat' split
  all_goals first
    | exact h
    | exact ptInv_ptUpsert _ _ _ h

theorem ptInv_transferStage (cfg : Cfg) (o : WebhookOracle) (s : SessionR) (db : DB)
    (h : PTInv db.pendings) : PTInv (transferStage cfg o s db).1.pendings := by
  simp only [transferStage]
  repeat' split
  all_goals first
    | exact h
    | exact ptInv_ptUpsert _ _ _ h
    | exact ptInv_catchStage _ _ _ _ h
    | exact ptInv_of_sublist (List.eraseP_sublist _) h

theorem ptInv_runOp (cfg : Cfg) (db : DB) (op : Op)
    (h : PTInv db.pendings) : PTInv (runOp cfg db op).pendings := by
  cases op with
  | webhook o =>
    show PTInv (handleWebhook cfg o db).2.1.pendings
    simp only [handleWebhook]
    repeat' split
    all_goals first
      | exact h
      | exact ptInv_transferStage _ _ _ _ (by rw [pendings_tokenStage]; exact h)
  | success o slug =>
    show PTInv (handleSuccess cfg o slug db).2.pendings
    rw [pendings_handleSuccess]; exact h
  | connectReturn o userId =>
    show PTInv (handleReturn cfg o userId db).2.1.pendings
    simp only [handleReturn]
    repeat' split
    all_goals first
      | exact h
      | exact ptInv_of_sublist (pendings_drainLoop _ _ _ _) (by simpa using h)
  | adminRetry o =>
    show PTInv (handleAdminRetry cfg o db).1.pendings
    unfold handleAdminRetry
    split
    · exact h
    · exact ptInv_of_sublist (pendings_adminLoop _ _ _) h
  | download o tok =>
    show PTInv (handleDownload cfg o tok db).2.pendings
    rw [db_handleDownload]; exact h

theorem ptInv_runOps (cfg : Cfg) :
    ∀ ops db, PTInv db.pendings → PTInv (runOps cfg db ops).pendings := by
  intro ops
  induction ops with
  | nil => intro db h; exact h
  | cons op ops ih => intro db h; exact ih _ (ptInv_runOp cfg db op h)

end InstantSale

namespace InstantSale

/-! ## Token-collection lemmas -/

theorem findTokenBySession_eq_none_iff (db : DB) (sid : String) :
    findTokenBySession db sid = none ↔ tokCount db sid = 0 := by
  unfold findTokenBySession tokCount
  rw [List.find?_eq_none, List.countP_eq_zero]

theorem tokCount_pos_of_findTokenBySession_eq_some (db : DB) (sid : String)
    (t : DownloadTokenR) (h : findTokenBySession db sid = some t) :
    0 < tokCount db sid := by
  unfold findTokenBySession at h
  have hm : t ∈ db.tokens := List.mem_of_find?_eq_some h
  have hp := List.find?_some h
  unfold tokCount
  rw [List.countP_pos_iff]
  exact ⟨t, hm, hp⟩

theorem tokens_tokenStage_cases (cfg : Cfg) (o : WebhookOracle) (s : SessionR) (db : DB) :
    (tokenStage cfg o s db).tokens = db.tokens ∨
      ∃ t, (tokenStage cfg o s db).tokens = db.tokens ++ [t] ∧
        t.usedOnce = false ∧ t.sessionId = some s.id ∧
        findTokenBySession db s.id = none := by
  simp only [tokenStage]
  repeat' split
  all_goals try exact Or.inl rfl
  exact Or.inr ⟨_, rfl, rfl, rfl, by assumption⟩

theorem tokens_handleSuccess_cases (cfg : Cfg) (o : SuccessOracle) (slug : String) (db : DB) :
    (handleSuccess cfg o slug db).2.tokens = db.tokens ∨
      ∃ t sid, (handleSuccess cfg o slug db).2.tokens = db.tokens ++ [t] ∧
        t.usedOnce = false ∧ t.sessionId = some sid ∧
        findTokenBySession db sid = none := by
  simp only [handleSuccess]
  repeat' split
  all_goals try exact Or.inl rfl
  exact Or.inr ⟨_, _, rfl, rfl, rfl, by assumption⟩

theorem tokens_handleReturn (cfg : Cfg) (o : ReturnOracle) (userId : ℕ) (db : DB) :
    (handleReturn cfg o userId db).2.1.tokens = db.tokens := by
  simp only [handleReturn]
  repeat' split
  all_goals first
    | rfl
    | rw [tokens_drainLoop]

theorem tokens_handleAdminRetry (cfg : Cfg) (o : AdminOracle) (db : DB) :
    (handleAdminRetry cfg o db).1.tokens = db.tokens := by
  simp only [handleAdminRetry]
  split
  · rfl
  · rw [tokens_adminLoop]

/-- Under the effective-delivery hypotheses the webhook handler reduces
to the two orchestrator stages and answers 200. -/
theorem handleWebhook_effective (cfg : Cfg) (o : WebhookOracle) (db : DB) (ev : EventR)
    (hc1 : cfg.stripeConfigured = true) (hc2 : cfg.webhookSecretConfigured = true)
    (hver : o.verify = .ok ev)
    (hfresh : db.processed.contains ev.id = false)
    (htype : ev.type = .completed ∨ ev.type = .asyncSucceeded) :
    handleWebhook cfg o db =
      (.ok,
        (transferStage cfg o ev.session
          (tokenStage cfg o ev.session { db with processed := db.processed ++ [ev.id] })).1,
        (transferStage cfg o ev.session
          (tokenStage cfg o ev.session { db with processed := db.processed ++ [ev.id] })).2) := by
  have hnm : ev.id ∉ db.processed := by simpa using hfresh
  have htyb : (ev.type == EvType.completed || ev.type == EvType.asyncSucceeded) = true := by
    rcases htype with h | h <;> simp [h]
  simp [handleWebhook, hc1, hc2, hver, hnm, htyb]

/-- Every request either leaves the token collection unchanged or appends
exactly one freshly minted token, unused, tied to a session that had no
token yet. -/
theorem tokens_runOp_cases (cfg : Cfg) (db : DB) (op : Op) :
    (runOp cfg db op).tokens = db.tokens ∨
      ∃ t sid, (runOp cfg db op).tokens = db.tokens ++ [t] ∧
        t.usedOnce = false ∧ t.sessionId = some sid ∧
        findTokenBySession db sid = none := by
  cases op with
  | webhook o =>
    show (handleWebhook cfg o db).2.1.tokens = db.tokens ∨
      ∃ t sid, (handleWebhook cfg o db).2.1.tokens = db.tokens ++ [t] ∧
        t.usedOnce = false ∧ t.sessionId = some sid ∧
        findTokenBySession db sid = none
    simp only [handleWebhook]
    repeat' split
    all_goals try exact Or.inl rfl
    rw [tokens_transferStage]
    rcases tokens_tokenStage_cases cfg o _ _ with h | ⟨t, ht, hu, hs, hf⟩
    · exact Or.inl h
    · exact Or.inr ⟨t, _, ht, hu, hs, hf⟩
  | success o slug =>
    show (handleSuccess cfg o slug db).2.tokens = db.tokens ∨
      ∃ t sid, (handleSuccess cfg o slug db).2.tokens = db.tokens ++ [t] ∧
        t.usedOnce = false ∧ t.sessionId = some sid ∧
        findTokenBySession db sid = none
    rcases tokens_handleSuccess_cases cfg o slug db with h | ⟨t, sid, ht, hu, hs, hf⟩
    · exact Or.inl h
    · exact Or.inr ⟨t, sid, ht, hu, hs, hf⟩
  | connectReturn o userId => exact Or.inl (tokens_handleReturn cfg o userId db)
  | adminRetry o => exact Or.inl (tokens_handleAdminRetry cfg o db)
  | download o tok =>
    refine Or.inl ?_
    show (handleDownload cfg o tok db).2.tokens = db.tokens
    rw [db_handleDownload]

theorem allUnused_runOp (cfg : Cfg) (db : DB) (op : Op)
    (h : AllUnused db) : AllUnused (runOp cfg db op) := by
  rcases tokens_runOp_cases cfg db op with he | ⟨t, sid, ht, hu, _, _⟩
  · intro x hx
    rw [show (runOp cfg db op).tokens = db.tokens from he] at hx
    exact h x hx
  · intro x hx
    rw [ht] at hx
    rcases List.mem_append.1 hx with hx | hx
    · exact h x hx
    · rw [List.mem_singleton.1 hx]
      exact hu

theorem allUnused_runOps (cfg : Cfg) :
    ∀ ops db, AllUnused db → AllUnused (runOps cfg db ops) := by
  intro ops
  induction ops with
  | nil => intro db h; exact h
  | cons op ops ih => intro db h; exact ih _ (allUnused_runOp cfg db op h)

theorem tokCount_runOp_cases (cfg : Cfg) (db : DB) (op : Op) (s : String) :
    tokCount (runOp cfg db op) s = tokCount db s ∨
      (tokCount db s = 0 ∧ tokCount (runOp cfg db op) s = 1) := by
  rcases tokens_runOp_cases cfg db op with he | ⟨t, sid, ht, _, hs, hf⟩
  · left
    unfold tokCount
    rw [he]
  · by_cases hsid : sid = s
    · right
      subst hsid
      have h0 : tokCount db sid = 0 := (findTokenBySession_eq_none_iff db sid).1 hf
      refine ⟨h0, ?_⟩
      have h0' : db.tokens.countP (fun t => t.sessionId == some sid) = 0 := h0
      unfold tokCount
      rw [ht, List.countP_append, h0', List.countP_cons]
      simp [hs]
    · left
      unfold tokCount
      rw [ht, List.countP_append, List.countP_cons]
      have hne : (t.sessionId == some s) = false := by
        rw [hs]
        simp only [beq_eq_false_iff_ne, ne_eq, Option.some.injEq]
        exact hsid
      simp [hne]

theorem tokCount_runOps_of_eq_one (cfg : Cfg) (s : String) :
    ∀ ops db, tokCount db s = 1 → tokCount (runOps cfg db ops) s = 1 := by
  intro ops
  induction ops with
  | nil => intro db h; exact h
  | cons op ops ih =>
    intro db h
    refine ih _ ?_
    rcases tokCount_runOp_cases cfg db op s with he | ⟨h0, _⟩
    · rw [he, h]
    · rw [h] at h0
      exact absurd h0 one_ne_zero

/-- After one effective paid delivery, the session's token count is
exactly one. -/
theorem tokCount_webhook_effective (cfg : Cfg) (o : WebhookOracle) (db : DB)
    (ev : EventR) (itemId : ℕ)
    (hc1 : cfg.stripeConfigured = true) (hc2 : cfg.webhookSecretConfigured = true)
    (hver : o.verify = .ok ev)
    (hfresh : db.processed.contains ev.id = false)
    (htype : ev.type = .completed ∨ ev.type = .asyncSucceeded)
    (hpaid : ev.session.paymentStatus = "paid")
    (hmeta : ev.session.metaItemId = some itemId)
    (hitem : (findItem db itemId).isSome = true)
    (hinv : tokCount db ev.session.id ≤ 1) :
    tokCount (runOp cfg db (Op.webhook o)) ev.session.id = 1 := by
  show tokCount (handleWebhook cfg o db).2.1 ev.session.id = 1
  rw [handleWebhook_effective cfg o db ev hc1 hc2 hver hfresh htype]
  dsimp only
  unfold tokCount
  rw [tokens_transferStage]
  have hpaid1 : (ev.session.paymentStatus == "paid") = true := by simp [hpaid]
  simp only [tokenStage, hpaid1, hmeta, if_true]
  cases hfind : findTokenBySession { db with processed := db.processed ++ [ev.id] } ev.session.id with
  | some tk =>
    have h1 : 0 < tokCount db ev.session.id :=
      tokCount_pos_of_findTokenBySession_eq_some db _ tk hfind
    have h2 : tokCount db ev.session.id = 1 := le_antisymm hinv h1
    simpa [tokCount] using h2
  | none =>
    have h0 : tokCount db ev.session.id = 0 :=
      (findTokenBySession_eq_none_iff db _).1 hfind
    have h0' : db.tokens.countP (fun t => t.sessionId == some ev.session.id) = 0 := h0
    cases hfi : findItem { db with processed := db.processed ++ [ev.id] } itemId with
    | none =>
      rw [show findItem { db with processed := db.processed ++ [ev.id] } itemId
            = findItem db itemId from rfl] at hfi
      rw [hfi] at hitem
      simp at hitem
    | some item =>
      simp only [List.countP_append, List.countP_cons, mintToken, h0']
      simp

theorem runOps_download_id (cfg : Cfg) (o : DlOracle) (tok : String) :
    ∀ n db, runOps cfg db (List.replicate n (Op.download o tok)) = db := by
  intro n
  induction n with
  | zero => intro db; rfl
  | succ n ih =>
    intro db
    rw [List.replicate_succ]
    show runOps cfg (runOp cfg db (Op.download o tok)) _ = db
    rw [show runOp cfg db (Op.download o tok) = db from db_handleDownload cfg o tok db]
    exact ih db

/-! ## Drain-loop characterization (return-flow drain) -/

theorem eraseP_eq_filter_not {α : Type} (p : α → Bool) :
    ∀ l : List α, l.countP p ≤ 1 → l.eraseP p = l.filter (fun a => !(p a)) := by
  intro l
  induction l with
  | nil => intro h; rfl
  | cons a t ih =>
    intro h
    rw [List.countP_cons] at h
    by_cases ha : p a = true
    · rw [List.eraseP_cons_of_pos ha, List.filter_cons_of_neg (by simp [ha])]
      have h0 : t.countP p = 0 := by
        rw [if_pos ha] at h
        omega
      have hall : ∀ x ∈ t, ¬ p x = true := List.countP_eq_zero.1 h0
      rw [List.filter_eq_self.2 (by intro x hx; simp [hall x hx])]
    · rw [List.eraseP_cons_of_neg ha, List.filter_cons_of_pos (by simp [ha])]
      rw [ih (by omega)]

theorem countP_rowId_le_one {l : List PendingTransferR}
    (h : (l.map (fun r => r.rowId)).Nodup) (x : ℕ) :
    l.countP (fun r => r.rowId == x) ≤ 1 := by
  have h1 := List.nodup_iff_count_le_one.1 h x
  rw [List.count_eq_countP, List.countP_map] at h1
  simpa using h1

theorem pendings_ptDeleteByRowId_eq_filter (db : DB) (rid : ℕ)
    (h : (db.pendings.map (fun r => r.rowId)).Nodup) :
    (ptDeleteByRowId db rid).pendings
      = db.pendings.filter (fun r => !(r.rowId == rid)) :=
  eraseP_eq_filter_not _ _ (countP_rowId_le_one h rid)

theorem rowId_inj_of_nodup {l : List PendingTransferR}
    (h : (l.map (fun r => r.rowId)).Nodup)
    {p q : PendingTransferR} (hp : p ∈ l) (hq : q ∈ l)
    (he : p.rowId = q.rowId) : p = q :=
  List.inj_on_of_nodup_map h hp hq he

theorem drainLoop_atts (accId : String) (outcome : TransferReq → Option StripeErr) :
    ∀ snap db, (drainLoop accId outcome snap db).2
      = snap.map (fun p =>
          { req := reqOfRow accId p, ok := (outcome (reqOfRow accId p)).isNone }) := by
  intro snap
  induction snap with
  | nil => intro db; rfl
  | cons p ps ih =>
    intro db
    simp only [drainLoop]
    cases ho : outcome (reqOfRow accId p) with
    | none => simp [ho, ih]
    | some e => simp [ho, ih]

/-- The pendings left by the drain loop: exactly the rows whose id is not
among the ids of the successfully transferred snapshot rows. -/
theorem drainLoop_pendings_spec (accId : String) (outcome : TransferReq → Option StripeErr) :
    ∀ snap db,
      (∀ p ∈ snap, p ∈ db.pendings) →
      (db.pendings.map (fun r => r.rowId)).Nodup →
      (snap.map (fun r => r.rowId)).Nodup →
      (drainLoop accId outcome snap db).1.pendings
        = db.pendings.filter
            (fun r => !((snap.filter
                (fun p => (outcome (reqOfRow accId p)).isNone)).any
                  (fun p => r.rowId == p.rowId))) := by
  intro snap
  induction snap with
  | nil =>
    intro db _ _ _
    simp [drainLoop]
  | cons p ps ih =>
    intro db hsub hnd hsn
    have hsn1 : (ps.map (fun r => r.rowId)).Nodup := (List.nodup_cons.1 (by simpa using hsn)).2
    have hpnotin : p.rowId ∉ ps.map (fun r => r.rowId) := (List.nodup_cons.1 (by simpa using hsn)).1
    simp only [drainLoop]
    cases ho : outcome (reqOfRow accId p) with
    | none =>
      have hdel : (ptDeleteByRowId db p.rowId).pendings
          = db.pendings.filter (fun r => !(r.rowId == p.rowId)) :=
        pendings_ptDeleteByRowId_eq_filter db p.rowId hnd
      have hsub1 : ∀ q ∈ ps, q ∈ (ptDeleteByRowId db p.rowId).pendings := by
        intro q hq
        rw [hdel, List.mem_filter]
        refine ⟨hsub q (List.mem_cons_of_mem p hq), ?_⟩
        have : q.rowId ≠ p.rowId := by
          intro he
          exact hpnotin (he ▸ List.mem_map_of_mem _ hq)
        simp [this]
      have hnd1 : ((ptDeleteByRowId db p.rowId).pendings.map (fun r => r.rowId)).Nodup := by
        rw [hdel]
        exact hnd.sublist (List.Sublist.map _ (List.filter_sublist _))
      have := ih (ptDeleteByRowId db p.rowId) hsub1 hnd1 hsn1
      rw [this, hdel, List.filter_filter]
      rw [List.filter_cons_of_pos (by simp [ho])]
      apply List.filter_congr
      intro r _
      cases hr : (r.rowId == p.rowId) <;> simp [hr]
    | some e =>
      have := ih db (fun q hq => hsub q (List.mem_cons_of_mem p hq)) hnd hsn1
      rw [this]
      rw [List.filter_cons_of_neg (by simp [ho])]

/-- Under a found user with an account whose live status reports payouts
enabled, `GET /connect/return` reduces to the drain loop over the
seller's snapshot. -/
theorem handleReturn_enabled (cfg : Cfg) (o : ReturnOracle) (userId : ℕ) (db : DB)
    (user : UserR) (acct : AccountR)
    (huser : findUser db userId = some user)
    (hacc : (user.stripeAccountId == "") = false)
    (hret : o.retrieveAccount user.stripeAccountId = .ok acct)
    (hpe : acct.payoutsEnabled = true) :
    handleReturn cfg o userId db =
      (.okPage,
        (drainLoop user.stripeAccountId o.transferOutcome
          (db.pendings.filter (fun p => p.seller == some userId))
          { db with users := db.users.map (fun u =>
              if u.id == userId then { u with payoutsEnabled := true } else u) }).1,
        (drainLoop user.stripeAccountId o.transferOutcome
          (db.pendings.filter (fun p => p.seller == some userId))
          { db with users := db.users.map (fun u =>
              if u.id == userId then { u with payoutsEnabled := true } else u) }).2) := by
  simp [handleReturn, huser, hacc, hret, hpe]

/-! ## Branch equations of the transfer stage -/

theorem findItem_tokenStage (cfg : Cfg) (o : WebhookOracle) (s : SessionR) (db : DB) (i : ℕ) :
    findItem (tokenStage cfg o s db) i = findItem db i := by
  unfold findItem
  rw [items_tokenStage]

theorem findUser_tokenStage (cfg : Cfg) (o : WebhookOracle) (s : SessionR) (db : DB) (u : ℕ) :
    findUser (tokenStage cfg o s db) u = findUser db u := by
  unfold findUser
  rw [users_tokenStage]

theorem transferStage_noPI (cfg : Cfg) (o : WebhookOracle) (s : SessionR) (db : DB)
    (hpi : s.paymentIntent = none) :
    transferStage cfg o s db = (db, []) := by
  simp [transferStage, hpi]

theorem transferStage_piError (cfg : Cfg) (o : WebhookOracle) (s : SessionR) (db : DB)
    (piId : String) (e : StripeErr)
    (hpi : s.paymentIntent = some piId) (hre : o.retrievePI piId = .error e) :
    transferStage cfg o s db = (catchStage cfg s e db, []) := by
  simp [transferStage, hpi, hre]

theorem transferStage_noMeta (cfg : Cfg) (o : WebhookOracle) (s : SessionR) (db : DB)
    (piId : String) (pi : PIR)
    (hpi : s.paymentIntent = some piId) (hre : o.retrievePI piId = .ok pi)
    (hmeta : s.metaItemId = none) :
    transferStage cfg o s db = (db, []) := by
  simp [transferStage, hpi, hre, hmeta]

theorem transferStage_hasTD (cfg : Cfg) (o : WebhookOracle) (s : SessionR) (db : DB)
    (piId : String) (pi : PIR) (itemId : ℕ)
    (hpi : s.paymentIntent = some piId) (hre : o.retrievePI piId = .ok pi)
    (hmeta : s.metaItemId = some itemId) (htd : pi.hasTransferData = true) :
    transferStage cfg o s db = (db, []) := by
  simp [transferStage, hpi, hre, hmeta, htd]

theorem transferStage_noItem (cfg : Cfg) (o : WebhookOracle) (s : SessionR) (db : DB)
    (piId : String) (pi : PIR) (itemId : ℕ)
    (hpi : s.paymentIntent = some piId) (hre : o.retrievePI piId = .ok pi)
    (hmeta : s.metaItemId = some itemId) (htd : pi.hasTransferData = false)
    (hit : findItem db itemId = none) :
    transferStage cfg o s db = (db, []) := by
  simp [transferStage, hpi, hre, hmeta, htd, hit]

theorem transferStage_noOwner (cfg : Cfg) (o : WebhookOracle) (s : SessionR) (db : DB)
    (piId : String) (pi : PIR) (itemId : ℕ) (item : ItemR)
    (hpi : s.paymentIntent = some piId) (hre : o.retrievePI piId = .ok pi)
    (hmeta : s.metaItemId = some itemId) (htd : pi.hasTransferData = false)
    (hit : findItem db itemId = some item) (how : item.ownerUser = none) :
    transferStage cfg o s db = (db, []) := by
  simp [transferStage, hpi, hre, hmeta, htd, hit, how]

theorem transferStage_noSeller (cfg : Cfg) (o : WebhookOracle) (s : SessionR) (db : DB)
    (piId : String) (pi : PIR) (itemId : ℕ) (item : ItemR) (ownerId : ℕ)
    (hpi : s.paymentIntent = some piId) (hre : o.retrievePI piId = .ok pi)
    (hmeta : s.metaItemId = some itemId) (htd : pi.hasTransferData = false)
    (hit : findItem db itemId = some item) (how : item.ownerUser = some ownerId)
    (hsel : findUser db ownerId = none) :
    transferStage cfg o s db =
      (ptUpsert db pi.id
        { seller := item.ownerUser, item := item.id,
          amount := (item.price : ℤ) - feeJs item.price cfg.feePercent,
          currency := item.currency,
          transferGroup := pi.transferGroup.getD ("item_" ++ toString item.id),
          reason := "seller_no_stripe_account" }, []) := by
  simp [transferStage, hpi, hre, hmeta, htd, hit, how, hsel]

theorem transferStage_emptyAccount (cfg : Cfg) (o : WebhookOracle) (s : SessionR) (db : DB)
    (piId : String) (pi : PIR) (itemId : ℕ) (item : ItemR) (ownerId : ℕ) (seller : UserR)
    (hpi : s.paymentIntent = some piId) (hre : o.retrievePI piId = .ok pi)
    (hmeta : s.metaItemId = some itemId) (htd : pi.hasTransferData = false)
    (hit : findItem db itemId = some item) (how : item.ownerUser = some ownerId)
    (hsel : findUser db ownerId = some seller)
    (hempty : (seller.stripeAccountId == "") = true) :
    transferStage cfg o s db =
      (ptUpsert db pi.id
        { seller := item.ownerUser, item := item.id,
          amount := (item.price : ℤ) - feeJs item.price cfg.feePercent,
          currency := item.currency,
          transferGroup := pi.transferGroup.getD ("item_" ++ toString item.id),
          reason := "seller_no_stripe_account" }, []) := by
  simp [transferStage, hpi, hre, hmeta, htd, hit, how, hsel, hempty]

theorem transferStage_nonPositive (cfg : Cfg) (o : WebhookOracle) (s : SessionR) (db : DB)
    (piId : String) (pi : PIR) (itemId : ℕ) (item : ItemR) (ownerId : ℕ) (seller : UserR)
    (hpi : s.paymentIntent = some piId) (hre : o.retrievePI piId = .ok pi)
    (hmeta : s.metaItemId = some itemId) (htd : pi.hasTransferData = false)
    (hit : findItem db itemId = some item) (how : item.ownerUser = some ownerId)
    (hsel : findUser db ownerId = some seller)
    (hempty : (seller.stripeAccountId == "") = false)
    (hle : (item.price : ℤ) - feeJs item.price cfg.feePercent ≤ 0) :
    transferStage cfg o s db =
      (ptUpsert db pi.id
        { seller := item.ownerUser, item := item.id,
          amount := (item.price : ℤ) - feeJs item.price cfg.feePercent,
          currency := item.currency,
          transferGroup := pi.transferGroup.getD ("item_" ++ toString item.id),
          reason := "non_positive_amount" }, []) := by
  simp [transferStage, hpi, hre, hmeta, htd, hit, how, hsel, hempty, hle]

theorem transferStage_payoutsDisabled (cfg : Cfg) (o : WebhookOracle) (s : SessionR) (db : DB)
    (piId : String) (pi : PIR) (itemId : ℕ) (item : ItemR) (ownerId : ℕ) (seller : UserR)
    (acc : AccountR)
    (hpi : s.paymentIntent = some piId) (hre : o.retrievePI piId = .ok pi)
    (hmeta : s.metaItemId = some itemId) (htd : pi.hasTransferData = false)
    (hit : findItem db itemId = some item) (how : item.ownerUser = some ownerId)
    (hsel : findUser db ownerId = some seller)
    (hempty : (seller.stripeAccountId == "") = false)
    (hpos : ¬ ((item.price : ℤ) - feeJs item.price cfg.feePercent ≤ 0))
    (hacc : o.retrieveAccount seller.stripeAccountId = .ok acc)
    (hdis : acc.payoutsEnabled = false) :
    transferStage cfg o s db =
      (ptUpsert db pi.id
        { seller := item.ownerUser, item := item.id,
          amount := (item.price : ℤ) - feeJs item.price cfg.feePercent,
          currency := item.currency,
          transferGroup := pi.transferGroup.getD ("item_" ++ toString item.id),
          reason := "payouts_disabled" }, []) := by
  simp [transferStage, hpi, hre, hmeta, htd, hit, how, hsel, hempty, hpos, hacc, hdis]

theorem transferStage_attempt (cfg : Cfg) (o : WebhookOracle) (s : SessionR) (db : DB)
    (piId : String) (pi : PIR) (itemId : ℕ) (item : ItemR) (ownerId : ℕ) (seller : UserR)
    (hpi : s.paymentIntent = some piId) (hre : o.retrievePI piId = .ok pi)
    (hmeta : s.metaItemId = some itemId) (htd : pi.hasTransferData = false)
    (hit : findItem db itemId = some item) (how : item.ownerUser = some ownerId)
    (hsel : findUser db ownerId = some seller)
    (hempty : (seller.stripeAccountId == "") = false)
    (hpos : ¬ ((item.price : ℤ) - feeJs item.price cfg.feePercent ≤ 0))
    (hcan : (match o.retrieveAccount seller.stripeAccountId with
      | Except.ok acc => acc.payoutsEnabled
      | Except.error _ => true) = true) :
    transferStage cfg o s db =
      (match o.transferOutcome { amount := (item.price : ℤ) - feeJs item.price cfg.feePercent, currency := item.currency, destination := seller.stripeAccountId, transferGroup := some (pi.transferGroup.getD ("item_" ++ toString item.id)) } with
        | none =>
          (ptDeleteByPid db pi.id,
            [{ req := { amount := (item.price : ℤ) - feeJs item.price cfg.feePercent, currency := item.currency, destination := seller.stripeAccountId, transferGroup := some (pi.transferGroup.getD ("item_" ++ toString item.id)) }, ok := true }])
        | some e =>
          (catchStage cfg s e db,
            [{ req := { amount := (item.price : ℤ) - feeJs item.price cfg.feePercent, currency := item.currency, destination := seller.stripeAccountId, transferGroup := some (pi.transferGroup.getD ("item_" ++ toString item.id)) }, ok := false }])) := by
  simp only [transferStage, hpi, hre, hmeta, htd, hit, how, hsel, hempty, hcan]
  rw [if_neg hpos]
  simp

theorem catchStage_with_id (cfg : Cfg) (s : SessionR) (e : StripeErr) (db : DB)
    (q : String) (itemId : ℕ) (item : ItemR)
    (he : e.paymentIntentId = some q)
    (hmeta : s.metaItemId = some itemId)
    (hit : findItem db itemId = some item) :
    catchStage cfg s e db =
      ptUpsert db q
        { seller := item.ownerUser, item := item.id,
          amount := (item.price : ℤ) - feeJs item.price cfg.feePercent,
          currency := item.currency,
          transferGroup := "item_" ++ toString item.id,
          reason := "exception" } := by
  simp [catchStage, he, hmeta, hit]

theorem catchStage_no_id (cfg : Cfg) (s : SessionR) (e : StripeErr) (db : DB)
    (he : e.paymentIntentId = none) :
    catchStage cfg s e db = db := by
  simp [catchStage, he]

/-! ## Existence of the upserted row -/

theorem exists_pid_ptUpdateFirst (f : PTFields) (pid : String) :
    ∀ l : List PendingTransferR, l.any (fun r => r.paymentIntentId == pid) = true →
      ∃ r ∈ ptUpdateFirst f pid l, r.paymentIntentId = pid := by
  intro l
  induction l with
  | nil => intro h; simp at h
  | cons a t ih =>
    intro h
    unfold ptUpdateFirst
    split
    · exact ⟨ptApply f pid a, List.mem_cons_self _ _, rfl⟩
    · rename_i hne
      rw [List.any_cons] at h
      have ht : t.any (fun r => r.paymentIntentId == pid) = true := by
        cases hh : (a.paymentIntentId == pid) with
        | true => exact absurd hh (by simpa using hne)
        | false => simpa [hh] using h
      obtain ⟨r, hr, hrp⟩ := ih ht
      exact ⟨r, List.mem_cons_of_mem _ hr, hrp⟩

theorem exists_pid_ptUpsert (db : DB) (pid : String) (f : PTFields) :
    ∃ r ∈ (ptUpsert db pid f).pendings, r.paymentIntentId = pid := by
  unfold ptUpsert
  split
  · rename_i h
    exact exists_pid_ptUpdateFirst f pid db.pendings h
  · refine ⟨_, List.mem_append_right _ (List.mem_singleton_self _), rfl⟩

theorem exists_row_ptUpdateFirst (f : PTFields) (pid : String) :
    ∀ l : List PendingTransferR, l.any (fun r => r.paymentIntentId == pid) = true →
      AllQueued l →
      ∃ r ∈ ptUpdateFirst f pid l, r.paymentIntentId = pid ∧ r.reason = f.reason ∧
        r.amount = f.amount ∧ r.seller = f.seller ∧ r.status = PTStatus.queued := by
  intro l
  induction l with
  | nil => intro h; simp at h
  | cons a t ih =>
    intro h hq
    unfold ptUpdateFirst
    split
    · refine ⟨ptApply f pid a, List.mem_cons_self _ _, rfl, rfl, rfl, rfl, ?_⟩
      exact hq a (List.mem_cons_self _ _)
    · rename_i hne
      rw [List.any_cons] at h
      have ht : t.any (fun r => r.paymentIntentId == pid) = true := by
        cases hh : (a.paymentIntentId == pid) with
        | true => exact absurd hh (by simpa using hne)
        | false => simpa [hh] using h
      obtain ⟨r, hr, hprops⟩ := ih ht (fun r hr => hq r (List.mem_cons_of_mem _ hr))
      exact ⟨r, List.mem_cons_of_mem _ hr, hprops⟩

theorem exists_row_ptUpsert (db : DB) (pid : String) (f : PTFields)
    (hq : AllQueued db.pendings) :
    ∃ r ∈ (ptUpsert db pid f).pendings, r.paymentIntentId = pid ∧ r.reason = f.reason ∧
      r.amount = f.amount ∧ r.seller = f.seller ∧ r.status = PTStatus.queued := by
  unfold ptUpsert
  split
  · rename_i h
    exact exists_row_ptUpdateFirst f pid db.pendings h hq
  · exact ⟨_, List.mem_append_right _ (List.mem_singleton_self _), rfl, rfl, rfl, rfl, rfl⟩

/-! ## The claims -/

/-- C2: for every payment-intent id, at most one `PendingTransfer` row
exists at any time, under any sequence of requests (webhook deliveries,
redeliveries, success-page hits, drains), the sequential-interleaving
model of the design's concurrency section; moreover every row a request
creates or rewrites goes through the upsert keyed by `paymentIntentId`,
whose insertions carry the schema default `status: queued` and whose
updates never touch `status` — so all rows also stay `queued`. -/
theorem C2_pending_uniqueness (cfg : Cfg) (db : DB) (ops : List Op)
    (h : PidUnique db.pendings ∧ AllQueued db.pendings) :
    PidUnique (runOps cfg db ops).pendings ∧ AllQueued (runOps cfg db ops).pendings :=
  ptInv_runOps cfg ops db h

/-- Witness for C2 at a concrete input: an empty ledger, then a webhook
delivery of a paid sale whose seller has no payout account (which
enqueues a row). -/
theorem C2_pending_uniqueness_witness :
    PidUnique (runOps cfgW dbW [Op.webhook oW]).pendings ∧
      AllQueued (runOps cfgW dbW [Op.webhook oW]).pendings :=
  C2_pending_uniqueness cfgW dbW [Op.webhook oW]
    ⟨fun q => by simp [pidCount, dbW], fun r hr => by simp [dbW] at hr⟩

/-- C4: a webhook delivery whose event id is already recorded as
processed short-circuits: the response is the 200 duplicate
acknowledgement, the database is returned unchanged (so no token,
ledger row or processed-event record is created) and no transfer call
is issued. -/
theorem C4_duplicate_short_circuit (cfg : Cfg) (o : WebhookOracle) (db : DB) (ev : EventR)
    (hc1 : cfg.stripeConfigured = true) (hc2 : cfg.webhookSecretConfigured = true)
    (hver : o.verify = .ok ev)
    (hdup : db.processed.contains ev.id = true) :
    handleWebhook cfg o db = (.okDuplicate, db, []) ∧
      webhookStatus .okDuplicate = 200 :=
  ⟨by
    have hd : ev.id ∈ db.processed := by simpa using hdup
    simp [handleWebhook, hc1, hc2, hver, hd], rfl⟩

/-- Witness for C4: redelivery of `evW` against a database that has
already recorded its event id. -/
theorem C4_duplicate_short_circuit_witness :
    handleWebhook cfgW oW { dbW with processed := ["evt_1"] }
        = (.okDuplicate, { dbW with processed := ["evt_1"] }, []) ∧
      webhookStatus .okDuplicate = 200 :=
  C4_duplicate_short_circuit cfgW oW { dbW with processed := ["evt_1"] } evW
    rfl rfl rfl (by decide)

/-- C8: a webhook delivery whose signature fails verification is
rejected with status 400, the raw verification error is surfaced in the
response body, and the database is returned unchanged — no
ProcessedEvent, DownloadToken, transfer or PendingTransfer results. -/
theorem C8_signature_failure_rejected (cfg : Cfg) (o : WebhookOracle) (db : DB) (msg : String)
    (hc1 : cfg.stripeConfigured = true) (hc2 : cfg.webhookSecretConfigured = true)
    (hver : o.verify = .error msg) :
    handleWebhook cfg o db = (.sigError msg, db, []) ∧
      webhookStatus (.sigError msg) = 400 ∧
      sigErrorBody msg = "Webhook Error: " ++ msg :=
  ⟨by simp [handleWebhook, hc1, hc2, hver], rfl, rfl⟩

/-- Witness for C8: a delivery whose signature verification throws. -/
theorem C8_signature_failure_rejected_witness :
    handleWebhook cfgW
        { oW with verify := .error "No signatures found" } dbW
        = (.sigError "No signatures found", dbW, []) ∧
      webhookStatus (.sigError "No signatures found") = 400 ∧
      sigErrorBody "No signatures found" = "Webhook Error: " ++ "No signatures found" :=
  C8_signature_failure_rejected cfgW _ dbW "No signatures found" rfl rfl rfl

/-- C3: processing a paid checkout delivery for a session (fresh event
id, item found) leaves exactly one DownloadToken referencing that
session id, and any further sequence of requests — redeliveries of paid
events for the same session, success-page fallback hits, drains,
downloads — still leaves exactly one: a second event for the session
never creates a second token. -/
theorem C3_one_token_per_session (cfg : Cfg) (o : WebhookOracle) (db : DB)
    (ev : EventR) (itemId : ℕ) (ops : List Op)
    (hc1 : cfg.stripeConfigured = true) (hc2 : cfg.webhookSecretConfigured = true)
    (hver : o.verify = .ok ev)
    (hfresh : db.processed.contains ev.id = false)
    (htype : ev.type = .completed ∨ ev.type = .asyncSucceeded)
    (hpaid : ev.session.paymentStatus = "paid")
    (hmeta : ev.session.metaItemId = some itemId)
    (hitem : (findItem db itemId).isSome = true)
    (hinv : tokCount db ev.session.id ≤ 1) :
    tokCount (runOps cfg (runOp cfg db (Op.webhook o)) ops) ev.session.id = 1 :=
  tokCount_runOps_of_eq_one cfg _ ops _
    (tokCount_webhook_effective cfg o db ev itemId hc1 hc2 hver hfresh htype
      hpaid hmeta hitem hinv)

/-- Witness for C3: a paid delivery for `sessW` followed by a redelivery
of the identical event and a success-page hit for the same session. -/
theorem C3_one_token_per_session_witness :
    tokCount (runOps cfgW (runOp cfgW dbW (Op.webhook oW))
        [Op.webhook oW, Op.success oS "art"]) sessW.id = 1 :=
  C3_one_token_per_session cfgW oW dbW evW 1 [Op.webhook oW, Op.success oS "art"]
    rfl rfl rfl (by decide) (Or.inl rfl) rfl rfl (by decide) (by decide)

/-- C10: no code path sets `usedOnce`: under any request sequence every
token stays unused, the download handler never mutates the database and
never takes the already-used branch, and repeating a redemption any
number of times yields the same outcome as the first (so a live token is
redeemable arbitrarily often until its expiry passes). -/
theorem C10_used_once_never_set (cfg : Cfg) (db : DB) (h : AllUnused db) :
    (∀ ops, AllUnused (runOps cfg db ops))
    ∧ (∀ o tok, (handleDownload cfg o tok db).2 = db)
    ∧ (∀ o tok, (handleDownload cfg o tok db).1 ≠ RedeemOutcome.alreadyUsed)
    ∧ (∀ o tok n,
        handleDownload cfg o tok (runOps cfg db (List.replicate n (Op.download o tok)))
          = handleDownload cfg o tok db) := by
  refine ⟨fun ops => allUnused_runOps cfg ops db h,
    fun o tok => db_handleDownload cfg o tok db, ?_, ?_⟩
  · intro o tok
    cases hf : db.tokens.find? (fun t => t.token == tok) with
    | none => simp [handleDownload, hf]
    | some doc =>
      have hd : doc.usedOnce = false := h doc (List.mem_of_find?_eq_some hf)
      simp only [handleDownload, hf, hd]
      repeat' split
      all_goals simp_all
  · intro o tok n
    rw [runOps_download_id]

/-- Witness for C10: a database holding one live unused token. -/
theorem C10_used_once_never_set_witness :
    (∀ ops, AllUnused (runOps cfgW dbT ops))
    ∧ (∀ o tok, (handleDownload cfgW o tok dbT).2 = dbT)
    ∧ (∀ o tok, (handleDownload cfgW o tok dbT).1 ≠ RedeemOutcome.alreadyUsed)
    ∧ (∀ o tok n,
        handleDownload cfgW o tok (runOps cfgW dbT (List.replicate n (Op.download o tok)))
          = handleDownload cfgW o tok dbT) :=
  C10_used_once_never_set cfgW dbT (by
    intro t ht
    simp only [dbT, dbW, List.mem_singleton] at ht
    rw [ht]
    rfl)


/-- C7: when a seller returns from onboarding and their account reports
payouts enabled, every one of the seller's pending rows is retried in
sequence (one attempt per row, failures included); each successful
transfer removes its row, each failed transfer leaves its row present
with every field — status included — unchanged, and rows of other
sellers are untouched. -/
theorem C7_return_drain (cfg : Cfg) (o : ReturnOracle) (userId : ℕ) (db : DB)
    (user : UserR) (acct : AccountR)
    (huser : findUser db userId = some user)
    (hacc : (user.stripeAccountId == "") = false)
    (hret : o.retrieveAccount user.stripeAccountId = .ok acct)
    (hpe : acct.payoutsEnabled = true)
    (hnodup : (db.pendings.map (fun r => r.rowId)).Nodup) :
    (∀ p ∈ db.pendings, (p.seller == some userId) = true →
        o.transferOutcome (reqOfRow user.stripeAccountId p) = none →
        p ∉ (handleReturn cfg o userId db).2.1.pendings)
    ∧ (∀ p ∈ db.pendings, (p.seller == some userId) = true →
        (o.transferOutcome (reqOfRow user.stripeAccountId p)).isSome = true →
        p ∈ (handleReturn cfg o userId db).2.1.pendings)
    ∧ (∀ p ∈ db.pendings, (p.seller == some userId) = false →
        p ∈ (handleReturn cfg o userId db).2.1.pendings)
    ∧ (handleReturn cfg o userId db).2.2
        = (db.pendings.filter (fun p => p.seller == some userId)).map
            (fun p =>
              { req := reqOfRow user.stripeAccountId p
                ok := (o.transferOutcome (reqOfRow user.stripeAccountId p)).isNone }) := by
  rw [handleReturn_enabled cfg o userId db user acct huser hacc hret hpe]
  dsimp only
  have hsub : ∀ p ∈ db.pendings.filter (fun p => p.seller == some userId),
      p ∈ db.pendings := fun p hp => (List.mem_filter.1 hp).1
  have hsn : ((db.pendings.filter (fun p => p.seller == some userId)).map
      (fun r => r.rowId)).Nodup :=
    hnodup.sublist (List.Sublist.map _ (List.filter_sublist _))
  have hspec := drainLoop_pendings_spec user.stripeAccountId o.transferOutcome
    (db.pendings.filter (fun p => p.seller == some userId))
    { db with users := db.users.map (fun u =>
        if u.id == userId then { u with payoutsEnabled := true } else u) }
    hsub hnodup hsn
  have hatts := drainLoop_atts user.stripeAccountId o.transferOutcome
    (db.pendings.filter (fun p => p.seller == some userId))
    { db with users := db.users.map (fun u =>
        if u.id == userId then { u with payoutsEnabled := true } else u) }
  refine ⟨?_, ?_, ?_, hatts⟩
  · intro p hp hsel hout
    rw [hspec]
    intro hmem
    have hpred := (List.mem_filter.1 hmem).2
    have hpin : p ∈ (db.pendings.filter (fun p => p.seller == some userId)).filter
        (fun q => (o.transferOutcome (reqOfRow user.stripeAccountId q)).isNone) :=
      List.mem_filter.2 ⟨List.mem_filter.2 ⟨hp, hsel⟩, by rw [hout]; rfl⟩
    have hany : ((db.pendings.filter (fun p => p.seller == some userId)).filter
        (fun q => (o.transferOutcome (reqOfRow user.stripeAccountId q)).isNone)).any
          (fun q => p.rowId == q.rowId) = true :=
      List.any_eq_true.2 ⟨p, hpin, by simp⟩
    rw [hany] at hpred
    simp at hpred
  · intro p hp hsel hout
    rw [hspec]
    refine List.mem_filter.2 ⟨hp, ?_⟩
    have hany : ((db.pendings.filter (fun p => p.seller == some userId)).filter
        (fun q => (o.transferOutcome (reqOfRow user.stripeAccountId q)).isNone)).any
          (fun q => p.rowId == q.rowId) = false := by
      rw [List.any_eq_false]
      intro q hq
      obtain ⟨hqsnap, hqnone⟩ := List.mem_filter.1 hq
      obtain ⟨hqdb, _⟩ := List.mem_filter.1 hqsnap
      intro hbeq
      have heq : p = q :=
        rowId_inj_of_nodup hnodup hp hqdb (by simpa using hbeq)
      rw [← heq] at hqnone
      rw [Option.isNone_iff_eq_none] at hqnone
      rw [hqnone] at hout
      simp at hout
    show (!((db.pendings.filter (fun p => p.seller == some userId)).filter
        (fun q => (o.transferOutcome (reqOfRow user.stripeAccountId q)).isNone)).any
          (fun q => p.rowId == q.rowId)) = true
    rw [hany]
    rfl
  · intro p hp hsel
    rw [hspec]
    refine List.mem_filter.2 ⟨hp, ?_⟩
    have hany : ((db.pendings.filter (fun p => p.seller == some userId)).filter
        (fun q => (o.transferOutcome (reqOfRow user.stripeAccountId q)).isNone)).any
          (fun q => p.rowId == q.rowId) = false := by
      rw [List.any_eq_false]
      intro q hq
      obtain ⟨hqsnap, _⟩ := List.mem_filter.1 hq
      obtain ⟨hqdb, hqsel⟩ := List.mem_filter.1 hqsnap
      intro hbeq
      have heq : p = q :=
        rowId_inj_of_nodup hnodup hp hqdb (by simpa using hbeq)
      rw [← heq] at hqsel
      rw [hqsel] at hsel
      simp at hsel
    show (!((db.pendings.filter (fun p => p.seller == some userId)).filter
        (fun q => (o.transferOutcome (reqOfRow user.stripeAccountId q)).isNone)).any
          (fun q => p.rowId == q.rowId)) = true
    rw [hany]
    rfl

/-- Witness for C7: seller 7 returns payout-enabled with two queued rows
(800 succeeds, 500 fails) while seller 8 has one row. -/
theorem C7_return_drain_witness :
    (∀ p ∈ dbP.pendings, (p.seller == some 7) = true →
        oR.transferOutcome (reqOfRow userP.stripeAccountId p) = none →
        p ∉ (handleReturn cfgW oR 7 dbP).2.1.pendings)
    ∧ (∀ p ∈ dbP.pendings, (p.seller == some 7) = true →
        (oR.transferOutcome (reqOfRow userP.stripeAccountId p)).isSome = true →
        p ∈ (handleReturn cfgW oR 7 dbP).2.1.pendings)
    ∧ (∀ p ∈ dbP.pendings, (p.seller == some 7) = false →
        p ∈ (handleReturn cfgW oR 7 dbP).2.1.pendings)
    ∧ (handleReturn cfgW oR 7 dbP).2.2
        = (dbP.pendings.filter (fun p => p.seller == some 7)).map
            (fun p =>
              { req := reqOfRow userP.stripeAccountId p
                ok := (oR.transferOutcome (reqOfRow userP.stripeAccountId p)).isNone }) :=
  C7_return_drain cfgW oR 7 dbP userP { payoutsEnabled := true }
    (by decide) (by decide) rfl rfl (by decide)


/-- C1 as stated is false: when the transfer call throws an error that
does not carry a payment-intent id (the usual shape of a
`transfers.create` failure), the handler still answers success but no
`PendingTransfer` row exists — the catch block enqueues only when
`err.payment_intent.id` is present.  Concretely: a paid sale of 1000
with a payout-enabled seller, where the transfer call throws a bare
error; the attempt fails, the response is the success acknowledgement,
and the ledger stays empty. -/
theorem C1_counterexample_exception_loses_iou :
    (handleWebhook cfgW oEx dbS).2.2.map (fun a => a.ok) = [false] ∧
    (handleWebhook cfgW oEx dbS).1 = WebhookResp.ok ∧
    (handleWebhook cfgW oEx dbS).2.1.pendings = [] := by
  decide

/-- C1 amended: on a paid delivery needing a transfer, (A) if the
precondition check fails — seller missing or without an account,
non-positive seller amount, or an account that reports payouts disabled
— a `PendingTransfer` keyed by the retrieved payment-intent id exists
when the handler returns success; (B) if retrieving the payment intent
throws an error carrying a payment-intent id, a row keyed by that id
exists; (C) if the transfer call throws an error carrying a
payment-intent id, a row keyed by that id exists.  (When the thrown
error carries no id, nothing is enqueued — the counterexample.) -/
theorem C1_pending_on_failure_amended (cfg : Cfg) (o : WebhookOracle) (db : DB)
    (ev : EventR) (piId : String)
    (hc1 : cfg.stripeConfigured = true) (hc2 : cfg.webhookSecretConfigured = true)
    (hver : o.verify = .ok ev)
    (hfresh : db.processed.contains ev.id = false)
    (htype : ev.type = .completed ∨ ev.type = .asyncSucceeded)
    (hpi : ev.session.paymentIntent = some piId) :
    (∀ pi itemId item ownerId,
      o.retrievePI piId = .ok pi → pi.hasTransferData = false →
      ev.session.metaItemId = some itemId → findItem db itemId = some item →
      item.ownerUser = some ownerId →
      (findUser db ownerId = none
        ∨ (∃ seller, findUser db ownerId = some seller ∧ (seller.stripeAccountId == "") = true)
        ∨ ((item.price : ℤ) - feeJs item.price cfg.feePercent ≤ 0)
        ∨ (∃ seller acc, findUser db ownerId = some seller ∧
            (seller.stripeAccountId == "") = false ∧
            o.retrieveAccount seller.stripeAccountId = .ok acc ∧
            acc.payoutsEnabled = false)) →
      (handleWebhook cfg o db).1 = WebhookResp.ok ∧
        ∃ r ∈ (handleWebhook cfg o db).2.1.pendings, r.paymentIntentId = pi.id)
    ∧ (∀ e q itemId item,
      o.retrievePI piId = .error e → e.paymentIntentId = some q →
      ev.session.metaItemId = some itemId → findItem db itemId = some item →
      (handleWebhook cfg o db).1 = WebhookResp.ok ∧
        ∃ r ∈ (handleWebhook cfg o db).2.1.pendings, r.paymentIntentId = q)
    ∧ (∀ pi itemId item ownerId seller e q req,
      o.retrievePI piId = .ok pi → pi.hasTransferData = false →
      ev.session.metaItemId = some itemId → findItem db itemId = some item →
      item.ownerUser = some ownerId → findUser db ownerId = some seller →
      (seller.stripeAccountId == "") = false →
      ¬ ((item.price : ℤ) - feeJs item.price cfg.feePercent ≤ 0) →
      (match o.retrieveAccount seller.stripeAccountId with
        | Except.ok acc => acc.payoutsEnabled
        | Except.error _ => true) = true →
      req = { amount := (item.price : ℤ) - feeJs item.price cfg.feePercent, currency := item.currency, destination := seller.stripeAccountId, transferGroup := some (pi.transferGroup.getD ("item_" ++ toString item.id)) } →
      o.transferOutcome req = some e → e.paymentIntentId = some q →
      (handleWebhook cfg o db).1 = WebhookResp.ok ∧
        ∃ r ∈ (handleWebhook cfg o db).2.1.pendings, r.paymentIntentId = q) := by
  have hred := handleWebhook_effective cfg o db ev hc1 hc2 hver hfresh htype
  refine ⟨?_, ?_, ?_⟩
  · intro pi itemId item ownerId hre htd hmeta hit how hfail
    rw [hred]
    dsimp only
    refine ⟨rfl, ?_⟩
    have hit2 : findItem (tokenStage cfg o ev.session
        { db with processed := db.processed ++ [ev.id] }) itemId = some item := by
      rw [findItem_tokenStage]; exact hit
    cases hselc : findUser db ownerId with
    | none =>
      have hsel2 : findUser (tokenStage cfg o ev.session
          { db with processed := db.processed ++ [ev.id] }) ownerId = none := by
        rw [findUser_tokenStage]; exact hselc
      rw [transferStage_noSeller cfg o ev.session _ piId pi itemId item ownerId
        hpi hre hmeta htd hit2 how hsel2]
      exact exists_pid_ptUpsert _ _ _
    | some seller =>
      have hsel2 : findUser (tokenStage cfg o ev.session
          { db with processed := db.processed ++ [ev.id] }) ownerId = some seller := by
        rw [findUser_tokenStage]; exact hselc
      cases hemp : (seller.stripeAccountId == "") with
      | true =>
        rw [transferStage_emptyAccount cfg o ev.session _ piId pi itemId item ownerId seller
          hpi hre hmeta htd hit2 how hsel2 hemp]
        exact exists_pid_ptUpsert _ _ _
      | false =>
        by_cases hle : (item.price : ℤ) - feeJs item.price cfg.feePercent ≤ 0
        · rw [transferStage_nonPositive cfg o ev.session _ piId pi itemId item ownerId seller
            hpi hre hmeta htd hit2 how hsel2 hemp hle]
          exact exists_pid_ptUpsert _ _ _
        · rcases hfail with hn | ⟨s1, hs1, he1⟩ | hl | ⟨s2, acc, hs2, he2, hacc, hdis⟩
          · rw [hselc] at hn; exact absurd hn (by simp)
          · rw [hselc] at hs1
            have h1 : seller = s1 := Option.some.inj hs1
            rw [← h1] at he1
            rw [he1] at hemp
            exact absurd hemp (by simp)
          · exact absurd hl hle
          · rw [hselc] at hs2
            have h2 : seller = s2 := Option.some.inj hs2
            rw [← h2] at hacc
            rw [transferStage_payoutsDisabled cfg o ev.session _ piId pi itemId item ownerId
              seller acc hpi hre hmeta htd hit2 how hsel2 hemp hle hacc hdis]
            exact exists_pid_ptUpsert _ _ _
  · intro e q itemId item hre he hmeta hit
    rw [hred]
    dsimp only
    refine ⟨rfl, ?_⟩
    have hit2 : findItem (tokenStage cfg o ev.session
        { db with processed := db.processed ++ [ev.id] }) itemId = some item := by
      rw [findItem_tokenStage]; exact hit
    rw [transferStage_piError cfg o ev.session _ piId e hpi hre]
    rw [catchStage_with_id cfg ev.session e _ q itemId item he hmeta hit2]
    exact exists_pid_ptUpsert _ _ _
  · intro pi itemId item ownerId seller e q req hre htd hmeta hit how hselc hemp hle hcan
      hreq hout he
    rw [hred]
    dsimp only
    refine ⟨rfl, ?_⟩
    have hit2 : findItem (tokenStage cfg o ev.session
        { db with processed := db.processed ++ [ev.id] }) itemId = some item := by
      rw [findItem_tokenStage]; exact hit
    have hsel2 : findUser (tokenStage cfg o ev.session
        { db with processed := db.processed ++ [ev.id] }) ownerId = some seller := by
      rw [findUser_tokenStage]; exact hselc
    rw [transferStage_attempt cfg o ev.session _ piId pi itemId item ownerId seller
      hpi hre hmeta htd hit2 how hsel2 hemp hle hcan]
    rw [hreq] at hout
    rw [hout]
    dsimp only
    rw [catchStage_with_id cfg ev.session e _ q itemId item he hmeta hit2]
    exact exists_pid_ptUpsert _ _ _

/-- Witness for the amended C1: a paid sale whose seller has no payout
account on file — the row keyed by the payment intent exists and the
handler answers success. -/
theorem C1_pending_on_failure_amended_witness :
    (handleWebhook cfgW oW dbW).1 = WebhookResp.ok ∧
      ∃ r ∈ (handleWebhook cfgW oW dbW).2.1.pendings, r.paymentIntentId = "pi_1" :=
  (C1_pending_on_failure_amended cfgW oW dbW evW "pi_1" rfl rfl rfl (by decide)
      (Or.inl rfl) rfl).1
    { id := "pi_1", hasTransferData := false, transferGroup := none } 1 itemW 7
    rfl rfl rfl (by decide) rfl
    (Or.inr (Or.inl ⟨{ id := 7, stripeAccountId := "", payoutsEnabled := false },
      by decide, by decide⟩))


/-- C6 as stated is false on its gating clause: when the account-status
retrieval itself throws, the code keeps `canTransfer = true` and executes
the transfer call even though the account did not report payouts-enabled.
Concretely: a paid sale with a seller whose account retrieval errors —
the transfer call is executed (and succeeds) while the status check
reported nothing. -/
theorem C6_counterexample_gating_on_status_error :
    (handleWebhook cfgW oG dbS).2.2.map (fun a => a.ok) = [true] ∧
    reportsEnabled (oG.retrieveAccount userS.stripeAccountId) = false := by
  decide

/-- C6 amended: (i) an executed transfer call implies the seller exists
with a payout account on file, the seller amount is positive, and the
account-status check did not report payouts disabled — a failed status
retrieval is treated as enabled, so only a successful retrieval is
guaranteed to have reported `payouts_enabled`; (ii)–(iv) each failed
precondition upserts a row keyed by the retrieved payment-intent id with
the matching reason code (`seller_no_stripe_account`,
`non_positive_amount`, `payouts_disabled`), the post-fee amount, and
status `queued`; (v)–(vi) a thrown transfer or payment-intent-retrieval
error enqueues reason `exception` only when the error carries a
payment-intent id, keyed by that id. -/
theorem C6_transfer_gating_amended (cfg : Cfg) (o : WebhookOracle) (db : DB)
    (ev : EventR) (piId : String)
    (hc1 : cfg.stripeConfigured = true) (hc2 : cfg.webhookSecretConfigured = true)
    (hver : o.verify = .ok ev)
    (hfresh : db.processed.contains ev.id = false)
    (htype : ev.type = .completed ∨ ev.type = .asyncSucceeded)
    (hpi : ev.session.paymentIntent = some piId)
    (hq : AllQueued db.pendings) :
    ((handleWebhook cfg o db).2.2 ≠ [] →
      ∃ pi itemId item ownerId seller,
        o.retrievePI piId = .ok pi ∧ pi.hasTransferData = false ∧
        ev.session.metaItemId = some itemId ∧ findItem db itemId = some item ∧
        item.ownerUser = some ownerId ∧ findUser db ownerId = some seller ∧
        (seller.stripeAccountId == "") = false ∧
        0 < (item.price : ℤ) - feeJs item.price cfg.feePercent ∧
        (∀ acc, o.retrieveAccount seller.stripeAccountId = .ok acc →
          acc.payoutsEnabled = true))
    ∧ (∀ pi itemId item ownerId,
        o.retrievePI piId = .ok pi → pi.hasTransferData = false →
        ev.session.metaItemId = some itemId → findItem db itemId = some item →
        item.ownerUser = some ownerId →
        (findUser db ownerId = none ∨
          ∃ seller, findUser db ownerId = some seller ∧
            (seller.stripeAccountId == "") = true) →
        ∃ r ∈ (handleWebhook cfg o db).2.1.pendings, r.paymentIntentId = pi.id ∧
          r.reason = "seller_no_stripe_account" ∧
          r.amount = (item.price : ℤ) - feeJs item.price cfg.feePercent ∧
          r.status = PTStatus.queued)
    ∧ (∀ pi itemId item ownerId seller,
        o.retrievePI piId = .ok pi → pi.hasTransferData = false →
        ev.session.metaItemId = some itemId → findItem db itemId = some item →
        item.ownerUser = some ownerId → findUser db ownerId = some seller →
        (seller.stripeAccountId == "") = false →
        (item.price : ℤ) - feeJs item.price cfg.feePercent ≤ 0 →
        ∃ r ∈ (handleWebhook cfg o db).2.1.pendings, r.paymentIntentId = pi.id ∧
          r.reason = "non_positive_amount" ∧
          r.amount = (item.price : ℤ) - feeJs item.price cfg.feePercent ∧
          r.status = PTStatus.queued)
    ∧ (∀ pi itemId item ownerId seller acc,
        o.retrievePI piId = .ok pi → pi.hasTransferData = false →
        ev.session.metaItemId = some itemId → findItem db itemId = some item →
        item.ownerUser = some ownerId → findUser db ownerId = some seller →
        (seller.stripeAccountId == "") = false →
        ¬ ((item.price : ℤ) - feeJs item.price cfg.feePercent ≤ 0) →
        o.retrieveAccount seller.stripeAccountId = .ok acc →
        acc.payoutsEnabled = false →
        ∃ r ∈ (handleWebhook cfg o db).2.1.pendings, r.paymentIntentId = pi.id ∧
          r.reason = "payouts_disabled" ∧
          r.amount = (item.price : ℤ) - feeJs item.price cfg.feePercent ∧
          r.status = PTStatus.queued)
    ∧ (∀ pi itemId item ownerId seller e q req,
        o.retrievePI piId = .ok pi → pi.hasTransferData = false →
        ev.session.metaItemId = some itemId → findItem db itemId = some item →
        item.ownerUser = some ownerId → findUser db ownerId = some seller →
        (seller.stripeAccountId == "") = false →
        ¬ ((item.price : ℤ) - feeJs item.price cfg.feePercent ≤ 0) →
        (match o.retrieveAccount seller.stripeAccountId with
          | Except.ok acc => acc.payoutsEnabled
          | Except.error _ => true) = true →
        req = { amount := (item.price : ℤ) - feeJs item.price cfg.feePercent, currency := item.currency, destination := seller.stripeAccountId, transferGroup := some (pi.transferGroup.getD ("item_" ++ toString item.id)) } →
        o.transferOutcome req = some e → e.paymentIntentId = some q →
        ∃ r ∈ (handleWebhook cfg o db).2.1.pendings, r.paymentIntentId = q ∧
          r.reason = "exception" ∧
          r.amount = (item.price : ℤ) - feeJs item.price cfg.feePercent ∧
          r.status = PTStatus.queued)
    ∧ (∀ e q itemId item,
        o.retrievePI piId = .error e → e.paymentIntentId = some q →
        ev.session.metaItemId = some itemId → findItem db itemId = some item →
        ∃ r ∈ (handleWebhook cfg o db).2.1.pendings, r.paymentIntentId = q ∧
          r.reason = "exception" ∧
          r.amount = (item.price : ℤ) - feeJs item.price cfg.feePercent ∧
          r.status = PTStatus.queued) := by
  have hred := handleWebhook_effective cfg o db ev hc1 hc2 hver hfresh htype
  have hq2 : AllQueued (tokenStage cfg o ev.session
      { db with processed := db.processed ++ [ev.id] }).pendings := by
    rw [pendings_tokenStage]; exact hq
  refine ⟨?_, ?_, ?_, ?_, ?_, ?_⟩
  · intro hne
    rw [hred] at hne
    dsimp only at hne
    rcases hre : o.retrievePI piId with e | pi
    · rw [transferStage_piError cfg o ev.session _ piId e hpi hre] at hne
      simp at hne
    · cases hmeta : ev.session.metaItemId with
      | none =>
        rw [transferStage_noMeta cfg o ev.session _ piId pi hpi hre hmeta] at hne
        simp at hne
      | some itemId =>
        cases htd : pi.hasTransferData with
        | true =>
          rw [transferStage_hasTD cfg o ev.session _ piId pi itemId hpi hre hmeta htd] at hne
          simp at hne
        | false =>
          cases hit : findItem db itemId with
          | none =>
            have hit2 : findItem (tokenStage cfg o ev.session
                { db with processed := db.processed ++ [ev.id] }) itemId = none := by
              rw [findItem_tokenStage]; exact hit
            rw [transferStage_noItem cfg o ev.session _ piId pi itemId
              hpi hre hmeta htd hit2] at hne
            simp at hne
          | some item =>
            have hit2 : findItem (tokenStage cfg o ev.session
                { db with processed := db.processed ++ [ev.id] }) itemId = some item := by
              rw [findItem_tokenStage]; exact hit
            cases how : item.ownerUser with
            | none =>
              rw [transferStage_noOwner cfg o ev.session _ piId pi itemId item
                hpi hre hmeta htd hit2 how] at hne
              simp at hne
            | some ownerId =>
              cases hselc : findUser db ownerId with
              | none =>
                have hsel2 : findUser (tokenStage cfg o ev.session
                    { db with processed := db.processed ++ [ev.id] }) ownerId = none := by
                  rw [findUser_tokenStage]; exact hselc
                rw [transferStage_noSeller cfg o ev.session _ piId pi itemId item ownerId
                  hpi hre hmeta htd hit2 how hsel2] at hne
                simp at hne
              | some seller =>
                have hsel2 : findUser (tokenStage cfg o ev.session
                    { db with processed := db.processed ++ [ev.id] }) ownerId = some seller := by
                  rw [findUser_tokenStage]; exact hselc
                cases hemp : (seller.stripeAccountId == "") with
                | true =>
                  rw [transferStage_emptyAccount cfg o ev.session _ piId pi itemId item
                    ownerId seller hpi hre hmeta htd hit2 how hsel2 hemp] at hne
                  simp at hne
                | false =>
                  by_cases hle : (item.price : ℤ) - feeJs item.price cfg.feePercent ≤ 0
                  · rw [transferStage_nonPositive cfg o ev.session _ piId pi itemId item
                      ownerId seller hpi hre hmeta htd hit2 how hsel2 hemp hle] at hne
                    simp at hne
                  · cases hcanM : (match o.retrieveAccount seller.stripeAccountId with
                      | Except.ok acc => acc.payoutsEnabled
                      | Except.error _ => true) with
                    | false =>
                      rcases hacc : o.retrieveAccount seller.stripeAccountId with e2 | acc
                      · rw [hacc] at hcanM
                        simp at hcanM
                      · rw [hacc] at hcanM
                        rw [transferStage_payoutsDisabled cfg o ev.session _ piId pi itemId
                          item ownerId seller acc hpi hre hmeta htd hit2 how hsel2 hemp hle
                          hacc hcanM] at hne
                        simp at hne
                    | true =>
                      refine ⟨pi, itemId, item, ownerId, seller, rfl, htd, rfl, hit, how,
                        hselc, hemp, by omega, ?_⟩
                      intro acc hacc
                      rw [hacc] at hcanM
                      exact hcanM
  · intro pi itemId item ownerId hre htd hmeta hit how hfail
    rw [hred]
    dsimp only
    have hit2 : findItem (tokenStage cfg o ev.session
        { db with processed := db.processed ++ [ev.id] }) itemId = some item := by
      rw [findItem_tokenStage]; exact hit
    rcases hfail with hn | ⟨seller, hselc, hemp⟩
    · have hsel2 : findUser (tokenStage cfg o ev.session
          { db with processed := db.processed ++ [ev.id] }) ownerId = none := by
        rw [findUser_tokenStage]; exact hn
      rw [transferStage_noSeller cfg o ev.session _ piId pi itemId item ownerId
        hpi hre hmeta htd hit2 how hsel2]
      obtain ⟨r, hr, h1, h2, h3, h4, h5⟩ := exists_row_ptUpsert _ _ _ hq2
      exact ⟨r, hr, h1, h2, h3, h5⟩
    · have hsel2 : findUser (tokenStage cfg o ev.session
          { db with processed := db.processed ++ [ev.id] }) ownerId = some seller := by
        rw [findUser_tokenStage]; exact hselc
      rw [transferStage_emptyAccount cfg o ev.session _ piId pi itemId item ownerId seller
        hpi hre hmeta htd hit2 how hsel2 hemp]
      obtain ⟨r, hr, h1, h2, h3, h4, h5⟩ := exists_row_ptUpsert _ _ _ hq2
      exact ⟨r, hr, h1, h2, h3, h5⟩
  · intro pi itemId item ownerId seller hre htd hmeta hit how hselc hemp hle
    rw [hred]
    dsimp only
    have hit2 : findItem (tokenStage cfg o ev.session
        { db with processed := db.processed ++ [ev.id] }) itemId = some item := by
      rw [findItem_tokenStage]; exact hit
    have hsel2 : findUser (tokenStage cfg o ev.session
        { db with processed := db.processed ++ [ev.id] }) ownerId = some seller := by
      rw [findUser_tokenStage]; exact hselc
    rw [transferStage_nonPositive cfg o ev.session _ piId pi itemId item ownerId seller
      hpi hre hmeta htd hit2 how hsel2 hemp hle]
    obtain ⟨r, hr, h1, h2, h3, h4, h5⟩ := exists_row_ptUpsert _ _ _ hq2
    exact ⟨r, hr, h1, h2, h3, h5⟩
  · intro pi itemId item ownerId seller acc hre htd hmeta hit how hselc hemp hle hacc hdis
    rw [hred]
    dsimp only
    have hit2 : findItem (tokenStage cfg o ev.session
        { db with processed := db.processed ++ [ev.id] }) itemId = some item := by
      rw [findItem_tokenStage]; exact hit
    have hsel2 : findUser (tokenStage cfg o ev.session
        { db with processed := db.processed ++ [ev.id] }) ownerId = some seller := by
      rw [findUser_tokenStage]; exact hselc
    rw [transferStage_payoutsDisabled cfg o ev.session _ piId pi itemId item ownerId seller
      acc hpi hre hmeta htd hit2 how hsel2 hemp hle hacc hdis]
    obtain ⟨r, hr, h1, h2, h3, h4, h5⟩ := exists_row_ptUpsert _ _ _ hq2
    exact ⟨r, hr, h1, h2, h3, h5⟩
  · intro pi itemId item ownerId seller e q req hre htd hmeta hit how hselc hemp hle hcan
      hreq hout he
    rw [hred]
    dsimp only
    have hit2 : findItem (tokenStage cfg o ev.session
        { db with processed := db.processed ++ [ev.id] }) itemId = some item := by
      rw [findItem_tokenStage]; exact hit
    have hsel2 : findUser (tokenStage cfg o ev.session
        { db with processed := db.processed ++ [ev.id] }) ownerId = some seller := by
      rw [findUser_tokenStage]; exact hselc
    rw [transferStage_attempt cfg o ev.session _ piId pi itemId item ownerId seller
      hpi hre hmeta htd hit2 how hsel2 hemp hle hcan]
    rw [hreq] at hout
    rw [hout]
    dsimp only
    rw [catchStage_with_id cfg ev.session e _ q itemId item he hmeta hit2]
    obtain ⟨r, hr, h1, h2, h3, h4, h5⟩ := exists_row_ptUpsert _ _ _ hq2
    exact ⟨r, hr, h1, h2, h3, h5⟩
  · intro e q itemId item hre he hmeta hit
    rw [hred]
    dsimp only
    have hit2 : findItem (tokenStage cfg o ev.session
        { db with processed := db.processed ++ [ev.id] }) itemId = some item := by
      rw [findItem_tokenStage]; exact hit
    rw [transferStage_piError cfg o ev.session _ piId e hpi hre]
    rw [catchStage_with_id cfg ev.session e _ q itemId item he hmeta hit2]
    obtain ⟨r, hr, h1, h2, h3, h4, h5⟩ := exists_row_ptUpsert _ _ _ hq2
    exact ⟨r, hr, h1, h2, h3, h5⟩

/-- Witness for the amended C6: the gating conclusion at a clean sale
that executes a transfer, and the no-account fallback row at a sale
whose seller lacks a payout account. -/
theorem C6_transfer_gating_amended_witness :
    (∃ pi itemId item ownerId seller,
      oW.retrievePI "pi_1" = .ok pi ∧ pi.hasTransferData = false ∧
      sessW.metaItemId = some itemId ∧ findItem dbS itemId = some item ∧
      item.ownerUser = some ownerId ∧ findUser dbS ownerId = some seller ∧
      (seller.stripeAccountId == "") = false ∧
      0 < (item.price : ℤ) - feeJs item.price cfgW.feePercent ∧
      (∀ acc, oW.retrieveAccount seller.stripeAccountId = .ok acc →
        acc.payoutsEnabled = true)) ∧
    (∃ r ∈ (handleWebhook cfgW oW dbW).2.1.pendings, r.paymentIntentId = "pi_1" ∧
      r.reason = "seller_no_stripe_account" ∧
      r.amount = (itemW.price : ℤ) - feeJs itemW.price cfgW.feePercent ∧
      r.status = PTStatus.queued) :=
  ⟨(C6_transfer_gating_amended cfgW oW dbS evW "pi_1" rfl rfl rfl (by decide)
      (Or.inl rfl) rfl (fun r hr => by simp [dbS] at hr)).1 (by decide),
   (C6_transfer_gating_amended cfgW oW dbW evW "pi_1" rfl rfl rfl (by decide)
      (Or.inl rfl) rfl (fun r hr => by simp [dbW] at hr)).2.1
     { id := "pi_1", hasTransferData := false, transferGroup := none } 1 itemW 7
     rfl rfl rfl (by decide) rfl
     (Or.inr ⟨{ id := 7, stripeAccountId := "", payoutsEnabled := false },
       by decide, by decide⟩)⟩


/-- C9 as stated is false on the error kind: the handler tests
`usedOnce` before the expiry, so an expired token that is also marked
used is rejected with the already-used message, not the expired one
(both are 410).  Concretely: `tokU` is used and expired, and redemption
renders the already-used error. -/
theorem C9_counterexample_used_expired :
    tokU.usedOnce = true ∧ tokU.expiresAt < cfgW.now ∧
    (handleDownload cfgW oD "t2" dbU).1 = RedeemOutcome.alreadyUsed ∧
    (handleDownload cfgW oD "t2" dbU).1 ≠ RedeemOutcome.expiredGone := by
  decide

/-- C9 amended: an unknown token yields 404; an expired token that is
not marked used is rejected with the expired error; a token marked used
is rejected with the already-used error (even when also expired); in
either case — used or expired — the response status is 410. -/
theorem C9_redemption_errors_amended (cfg : Cfg) (o : DlOracle) (tok : String) (db : DB) :
    (db.tokens.find? (fun t => t.token == tok) = none →
      (handleDownload cfg o tok db).1 = RedeemOutcome.notFound ∧
      redeemStatus (handleDownload cfg o tok db).1 = 404)
    ∧ (∀ doc, db.tokens.find? (fun t => t.token == tok) = some doc →
        doc.usedOnce = false → doc.expiresAt < cfg.now →
        (handleDownload cfg o tok db).1 = RedeemOutcome.expiredGone ∧
        redeemStatus (handleDownload cfg o tok db).1 = 410)
    ∧ (∀ doc, db.tokens.find? (fun t => t.token == tok) = some doc →
        doc.usedOnce = true →
        (handleDownload cfg o tok db).1 = RedeemOutcome.alreadyUsed ∧
        redeemStatus (handleDownload cfg o tok db).1 = 410)
    ∧ (∀ doc, db.tokens.find? (fun t => t.token == tok) = some doc →
        (doc.usedOnce = true ∨ doc.expiresAt < cfg.now) →
        redeemStatus (handleDownload cfg o tok db).1 = 410) := by
  refine ⟨?_, ?_, ?_, ?_⟩
  · intro hf
    simp [handleDownload, hf, redeemStatus]
  · intro doc hf hu he
    simp [handleDownload, hf, hu, he, redeemStatus]
  · intro doc hf hu
    simp [handleDownload, hf, hu, redeemStatus]
  · intro doc hf hcase
    cases hu : doc.usedOnce with
    | true => simp [handleDownload, hf, hu, redeemStatus]
    | false =>
      rcases hcase with hc | hc
      · rw [hu] at hc; exact absurd hc (by simp)
      · simp [handleDownload, hf, hu, hc, redeemStatus]

/-- Witness for the amended C9: an unknown token yields 404, and the
expired unused token `tokE` yields the expired error with 410. -/
theorem C9_redemption_errors_amended_witness :
    ((handleDownload cfgW oD "zz" dbE).1 = RedeemOutcome.notFound ∧
      redeemStatus (handleDownload cfgW oD "zz" dbE).1 = 404) ∧
    ((handleDownload cfgW oD "t3" dbE).1 = RedeemOutcome.expiredGone ∧
      redeemStatus (handleDownload cfgW oD "t3" dbE).1 = 410) :=
  ⟨(C9_redemption_errors_amended cfgW oD "zz" dbE).1 (by decide),
   (C9_redemption_errors_amended cfgW oD "t3" dbE).2.1 tokE (by decide) rfl (by decide)⟩

/-- C5: the fee computation runs in binary64 floating point
(`Math.floor(price * (feePercent / 100))`), which deviates from the
specified exact `floor(price * fee_percent / 100)`.  At price 100 and
fee percent 29 the code computes 28 while the exact floor is 29 (the
spec's own example, price 1000 at 20 %, happens to agree at 200).
`seller_amount + fee = price` still holds by construction, since the
seller amount is defined as the difference. -/
theorem C5_fee_binary64_deviation :
    feeJs 100 29 = 28 ∧ feeSpec 100 29 = 29 ∧ feeJs 100 29 ≠ feeSpec 100 29 ∧
    feeJs 1000 20 = 200 ∧ feeSpec 1000 20 = 200 ∧
    ((1000 : ℤ) - feeJs 1000 20) + feeJs 1000 20 = 1000 := by
  refine ⟨by decide, by decide, by decide, by decide, by decide, by decide⟩

end InstantSale
